import Mathlib

/-!
Verification of the mcp-upstage-server repository (TypeScript) against its
natural-language specification, over a shallow embedding of the source.

The embedding models JavaScript values (`JVal`), the `JSON.stringify` /
`JSON.parse` builtins for the fragment the repository exercises, the schema
helpers (`src/utils/schemas.ts`), the file validator (`src/utils/validators.ts`),
the retrying API client (`src/utils/apiClient.ts` over the npm `retry`
package's semantics), the four tool handlers (`documentParser.ts`,
`informationExtractor.ts`, `documentClassifier.ts`, `schemaGenerator.ts`) and
the two MCP transport dispatchers (`server.ts` for stdio, `httpServer.ts` for
HTTP).

Effects are made explicit: the filesystem is a lookup structure, the remote
endpoint is a function from attempt number to outcome, progress sinks are
fallible callbacks, and each handler returns its result together with the
number of outbound network attempts and the list of JSON files written.
-/

mutual

/-- A JavaScript runtime value as the repository manipulates them: the JSON
values plus `undefined`.  Numbers are carried as integers: the repository
never builds a fractional numeric literal (schemas and responses are
strings, arrays and objects), so the integer subset is exact for every value
these programs construct.  Arrays and objects carry their own sequence
types (`JItems`, `JMembers`) so that recursion over values is structural. -/
inductive JVal where
  | undef
  | null
  | bool (b : Bool)
  | num (n : Int)
  | str (s : String)
  | arr (elems : JItems)
  | obj (members : JMembers)

/-- The element sequence of a JavaScript array. -/
inductive JItems where
  | nil
  | cons (head : JVal) (tail : JItems)

/-- The member sequence of a JavaScript object, in insertion order. -/
inductive JMembers where
  | nil
  | cons (key : String) (val : JVal) (tail : JMembers)

end

instance : Inhabited JVal := ⟨.undef⟩
instance : Inhabited JItems := ⟨.nil⟩
instance : Inhabited JMembers := ⟨.nil⟩

mutual

/-- Structural equality of values (deep equality on JSON-like data). -/
def beqV : JVal → JVal → Bool
  | .undef, .undef => true
  | .null, .null => true
  | .bool a, .bool b => a == b
  | .num a, .num b => a == b
  | .str a, .str b => a == b
  | .arr a, .arr b => beqI a b
  | .obj a, .obj b => beqM a b
  | _, _ => false

/-- Element-wise equality of array contents. -/
def beqI : JItems → JItems → Bool
  | .nil, .nil => true
  | .cons a as, .cons b bs => beqV a b && beqI as bs
  | _, _ => false

/-- Member-wise equality of object contents. -/
def beqM : JMembers → JMembers → Bool
  | .nil, .nil => true
  | .cons k v as, .cons l w bs => k == l && beqV v w && beqM as bs
  | _, _ => false

end

mutual

theorem beqV_iff : ∀ a b : JVal, beqV a b = true ↔ a = b
  | .undef, b => by cases b <;> simp [beqV]
  | .null, b => by cases b <;> simp [beqV]
  | .bool a, b => by cases b <;> simp [beqV]
  | .num a, b => by cases b <;> simp [beqV]
  | .str a, b => by cases b <;> simp [beqV]
  | .arr a, b => by
      cases b <;> simp [beqV]
      exact beqI_iff a _
  | .obj a, b => by
      cases b <;> simp [beqV]
      exact beqM_iff a _

theorem beqI_iff : ∀ a b : JItems, beqI a b = true ↔ a = b
  | .nil, b => by cases b <;> simp [beqI]
  | .cons x xs, b => by
      cases b with
      | nil => simp [beqI]
      | cons y ys =>
          simp [beqI, Bool.and_eq_true, beqV_iff x y, beqI_iff xs ys]

theorem beqM_iff : ∀ a b : JMembers, beqM a b = true ↔ a = b
  | .nil, b => by cases b <;> simp [beqM]
  | .cons k v xs, b => by
      cases b with
      | nil => simp [beqM]
      | cons l w ys =>
          simp [beqM, Bool.and_eq_true, beqV_iff v w, beqM_iff xs ys, and_assoc]

end

instance : DecidableEq JVal := fun a b => decidable_of_iff _ (beqV_iff a b)
instance : DecidableEq JItems := fun a b => decidable_of_iff _ (beqI_iff a b)
instance : DecidableEq JMembers := fun a b => decidable_of_iff _ (beqM_iff a b)

instance {ε α : Type} [DecidableEq ε] [DecidableEq α] : DecidableEq (Except ε α) := by
  intro a b
  cases a <;> cases b
  case error.error e f => exact decidable_of_iff (e = f) (by simp)
  case ok.ok x y => exact decidable_of_iff (x = y) (by simp)
  all_goals exact isFalse (by intro h; cases h)

/-- Builds array contents from a Lean list (construction helper only). -/
def JItems.ofList : List JVal → JItems
  | [] => .nil
  | v :: t => .cons v (JItems.ofList t)

/-- Builds object contents from a Lean association list (construction helper
only). -/
def JMembers.ofList : List (String × JVal) → JMembers
  | [] => .nil
  | (k, v) :: t => .cons k v (JMembers.ofList t)

/-- Array value from a Lean list. -/
def jarr (l : List JVal) : JVal := .arr (JItems.ofList l)

/-- Object value from a Lean association list (insertion order preserved,
as in a JavaScript object literal). -/
def jobj (l : List (String × JVal)) : JVal := .obj (JMembers.ofList l)

namespace JVal

/-- JavaScript truthiness: `undefined`, `null`, `false`, `0` and the empty
string are falsy; every object and array (even empty) is truthy. -/
def truthy : JVal → Bool
  | .undef => false
  | .null => false
  | .bool b => b
  | .num n => n != 0
  | .str s => s != ""
  | .arr _ => true
  | .obj _ => true

/-- The `typeof` operator.  `typeof null` is `"object"`, as in JavaScript;
arrays are objects too. -/
def typeOf : JVal → String
  | .undef => "undefined"
  | .null => "object"
  | .bool _ => "boolean"
  | .num _ => "number"
  | .str _ => "string"
  | .arr _ => "object"
  | .obj _ => "object"

/-- First binding of `key` among the members (JavaScript objects hold each
key once). -/
def getM : JMembers → String → JVal
  | .nil, _ => .undef
  | .cons k v t, key => if k = key then v else getM t key

/-- Property read `v[key]`: a missing key or a non-object receiver yields
`undefined` (property access on actual `null`/`undefined` throws in JS, but
the repository only dereferences values it has checked; reads it performs on
possibly-missing keys land in the `undefined` case exactly as in JS). -/
def getF : JVal → String → JVal
  | .obj ms, key => getM ms key
  | _, _ => .undef

end JVal

mutual

/-- A value free of `undefined`, i.e. an actual JSON value.  Every value the
repository serializes satisfies this. -/
def noUndefV : JVal → Bool
  | .undef => false
  | .null => true
  | .bool _ => true
  | .num _ => true
  | .str _ => true
  | .arr es => noUndefI es
  | .obj ms => noUndefM ms

/-- `noUndefV` over every array element. -/
def noUndefI : JItems → Bool
  | .nil => true
  | .cons v vs => noUndefV v && noUndefI vs

/-- `noUndefV` over every member value. -/
def noUndefM : JMembers → Bool
  | .nil => true
  | .cons _ v ms => noUndefV v && noUndefM ms

end

mutual

/-- The value `JSON.stringify` actually serializes: object members holding
`undefined` are dropped, and `undefined` array elements become `null`
(ECMAScript SerializeJSONObject / SerializeJSONArray). -/
def stripV : JVal → JVal
  | .undef => .undef
  | .null => .null
  | .bool b => .bool b
  | .num n => .num n
  | .str s => .str s
  | .arr es => .arr (stripI es)
  | .obj ms => .obj (stripM ms)

/-- `stripV` over array elements, with `undefined` elements becoming `null`. -/
def stripI : JItems → JItems
  | .nil => .nil
  | .cons .undef vs => .cons .null (stripI vs)
  | .cons v vs => .cons (stripV v) (stripI vs)

/-- `stripV` over members, dropping `undefined`-valued members. -/
def stripM : JMembers → JMembers
  | .nil => .nil
  | .cons _ .undef ms => stripM ms
  | .cons k v ms => .cons k (stripV v) (stripM ms)

end

mutual

theorem stripV_id : ∀ v : JVal, noUndefV v = true → stripV v = v
  | .undef, h => by simp [noUndefV] at h
  | .null, _ => rfl
  | .bool b, _ => rfl
  | .num n, _ => rfl
  | .str s, _ => rfl
  | .arr es, h => by
      rw [stripV, stripI_id es (by simpa [noUndefV] using h)]
  | .obj ms, h => by
      rw [stripV, stripM_id ms (by simpa [noUndefV] using h)]

theorem stripI_id : ∀ es : JItems, noUndefI es = true → stripI es = es
  | .nil, _ => rfl
  | .cons v vs, h => by
      rw [noUndefI, Bool.and_eq_true] at h
      cases v with
      | undef => simp [noUndefV] at h
      | null => rw [stripI, stripV_id _ h.1, stripI_id vs h.2]; simp
      | bool b => rw [stripI, stripV_id _ h.1, stripI_id vs h.2]; simp
      | num n => rw [stripI, stripV_id _ h.1, stripI_id vs h.2]; simp
      | str s => rw [stripI, stripV_id _ h.1, stripI_id vs h.2]; simp
      | arr es2 => rw [stripI, stripV_id _ h.1, stripI_id vs h.2]; simp
      | obj ms2 => rw [stripI, stripV_id _ h.1, stripI_id vs h.2]; simp

theorem stripM_id : ∀ ms : JMembers, noUndefM ms = true → stripM ms = ms
  | .nil, _ => rfl
  | .cons k v t, h => by
      rw [noUndefM, Bool.and_eq_true] at h
      cases v with
      | undef => simp [noUndefV] at h
      | null => rw [stripM, stripV_id _ h.1, stripM_id t h.2]; simp
      | bool b => rw [stripM, stripV_id _ h.1, stripM_id t h.2]; simp
      | num n => rw [stripM, stripV_id _ h.1, stripM_id t h.2]; simp
      | str s => rw [stripM, stripV_id _ h.1, stripM_id t h.2]; simp
      | arr es2 => rw [stripM, stripV_id _ h.1, stripM_id t h.2]; simp
      | obj ms2 => rw [stripM, stripV_id _ h.1, stripM_id t h.2]; simp

end

/-! ### `JSON.stringify` (compact form, as `schemaToJson` uses it)

The printer follows the ECMAScript serialization of the values the
repository builds: no insignificant whitespace, `"`/`\`/control characters
escaped (`\b \f \n \r \t` short forms, `\u00xx` otherwise).  The
`undefined` handling (members dropped, array elements as `null`) lives in
`stripV`, applied once by `jsonStringify`; the printer itself never meets
`undefined` on values the repository serializes. -/

/-- Lower-case hexadecimal digit character of `n < 16`. -/
def hexDigitChar (n : Nat) : Char :=
  Char.ofNat (if n < 10 then 48 + n else 87 + n)

/-- JSON escape of one character, per `JSON.stringify`. -/
def escapeChar (c : Char) : List Char :=
  if c = '"' then ['\\', '"']
  else if c = '\\' then ['\\', '\\']
  else if c = Char.ofNat 8 then ['\\', 'b']
  else if c = Char.ofNat 12 then ['\\', 'f']
  else if c = '\n' then ['\\', 'n']
  else if c = '\r' then ['\\', 'r']
  else if c = '\t' then ['\\', 't']
  else if c.toNat < 32 then
    ['\\', 'u', '0', '0', hexDigitChar (c.toNat / 16), hexDigitChar (c.toNat % 16)]
  else [c]

/-- A quoted, escaped JSON string literal as a character list. -/
def quoteChars (s : String) : List Char :=
  '"' :: (s.toList.flatMap escapeChar ++ ['"'])

/-- Decimal digit character of `d < 10`. -/
def decDigit (d : Nat) : Char := Char.ofNat (48 + d)

/-- Decimal digit characters of `n`, most significant first, by repeated
division; the fuel is structural so the definition computes in the kernel. -/
def natCharsAux : Nat → Nat → List Char
  | 0, _ => []
  | fuel + 1, n => if n = 0 then [] else natCharsAux fuel (n / 10) ++ [decDigit (n % 10)]

/-- Decimal characters of a natural number, most significant digit first. -/
def natChars (n : Nat) : List Char :=
  if n = 0 then ['0'] else natCharsAux n n

theorem natCharsAux_eq_digits :
    ∀ fuel n, n ≤ fuel → natCharsAux fuel n = (Nat.digits 10 n).reverse.map decDigit := by
  intro fuel
  induction fuel with
  | zero =>
      intro n hn
      have : n = 0 := Nat.le_zero.mp hn
      subst this
      simp [natCharsAux]
  | succ f ih =>
      intro n hn
      by_cases h0 : n = 0
      · subst h0
        simp [natCharsAux]
      · rw [natCharsAux, if_neg h0]
        have hdiv : n / 10 ≤ f := by
          have : n / 10 < n := Nat.div_lt_self (Nat.pos_of_ne_zero h0) (by omega)
          omega
        rw [ih (n / 10) hdiv]
        rw [Nat.digits_def' (by omega : 1 < 10) (Nat.pos_of_ne_zero h0)]
        simp

theorem natChars_eq_digits (n : Nat) :
    natChars n = if n = 0 then ['0'] else (Nat.digits 10 n).reverse.map decDigit := by
  by_cases h0 : n = 0
  · simp [natChars, h0]
  · rw [natChars, if_neg h0, if_neg h0, natCharsAux_eq_digits n n (le_refl n)]

/-- Decimal characters of an integer: optional minus sign, then digits. -/
def intChars (i : Int) : List Char :=
  if i < 0 then '-' :: natChars i.natAbs else natChars i.natAbs

/-- Characters of the three keyword literals of JSON text. -/
def nullChars : List Char := ['n', 'u', 'l', 'l']

def trueChars : List Char := ['t', 'r', 'u', 'e']

def falseChars : List Char := ['f', 'a', 'l', 's', 'e']

mutual

/-- Serialization of one (already stripped) value, as a character list. -/
def printV : JVal → List Char
  | .undef => nullChars
  | .null => nullChars
  | .bool true => trueChars
  | .bool false => falseChars
  | .num n => intChars n
  | .str s => quoteChars s
  | .arr es => '[' :: (printItems es ++ [']'])
  | .obj ms => '{' :: (printMembers ms ++ ['}'])

/-- Comma-separated rendering of array elements. -/
def printItems : JItems → List Char
  | .nil => []
  | .cons v .nil => printV v
  | .cons v rest => printV v ++ ',' :: printItems rest

/-- Comma-separated rendering of object members. -/
def printMembers : JMembers → List Char
  | .nil => []
  | .cons k v .nil => quoteChars k ++ ':' :: printV v
  | .cons k v rest => quoteChars k ++ ':' :: printV v ++ ',' :: printMembers rest

end

/-- `JSON.stringify` of a value (`schemaToJson` and the handlers call this
with actual JSON values, where it always yields a string; a bare
`undefined` at the top yields no string in JS and is never serialized by
the repository). -/
def jsonStringify (v : JVal) : String := String.mk (printV (stripV v))

/-! ### `JSON.parse`

The parser accepts the grammar the repository ever feeds back into
`JSON.parse`: the compact output of the printer above.  Numbers are limited
to the integer subset (the repository never serializes a fractional
literal), and a fractional or exponent form is reported as outside the
modelled fragment rather than silently misread.  Totality is by a fuel
argument bounded below by the input length. -/

/-- ASCII decimal digit test. -/
def isDigitCh (c : Char) : Bool := 48 ≤ c.toNat && c.toNat ≤ 57

/-- Value of a decimal digit character. -/
def digitVal (c : Char) : Nat := c.toNat - 48

/-- Value of a hexadecimal digit character, either case. -/
def hexVal (c : Char) : Option Nat :=
  if 48 ≤ c.toNat && c.toNat ≤ 57 then some (c.toNat - 48)
  else if 97 ≤ c.toNat && c.toNat ≤ 102 then some (c.toNat - 87)
  else if 65 ≤ c.toNat && c.toNat ≤ 70 then some (c.toNat - 55)
  else none

/-- Splits a leading run of decimal digits from the rest of the input. -/
def grabDigits : List Char → List Char × List Char
  | [] => ([], [])
  | c :: cs =>
      if isDigitCh c then
        let (ds, r) := grabDigits cs
        (c :: ds, r)
      else ([], c :: cs)

/-- Numeric value of a digit run, most significant digit first. -/
def digitsNum (ds : List Char) : Nat :=
  ds.foldl (fun a c => a * 10 + digitVal c) 0

/-- Parses an integer numeric token: optional minus sign and a digit run. -/
def parseIntTok (cs : List Char) : Except String (Int × List Char) :=
  let (neg, cs1) := match cs with
    | '-' :: r => (true, r)
    | _ => (false, cs)
  let (ds, r) := grabDigits cs1
  if ds.isEmpty then .error "invalid number"
  else
    match r with
    | '.' :: _ => .error "non-integer number outside the modelled fragment"
    | 'e' :: _ => .error "non-integer number outside the modelled fragment"
    | 'E' :: _ => .error "non-integer number outside the modelled fragment"
    | _ => .ok (if neg then -(digitsNum ds : Int) else (digitsNum ds : Int), r)

/-- Character denoted by a short escape sequence. -/
def unescape1 : Char → Option Char
  | '"' => some '"'
  | '\\' => some '\\'
  | '/' => some '/'
  | 'b' => some (Char.ofNat 8)
  | 'f' => some (Char.ofNat 12)
  | 'n' => some '\n'
  | 'r' => some '\r'
  | 't' => some '\t'
  | _ => none

/-- Parses a string body after the opening quote, unescaping as it goes;
`acc` holds the characters read so far, in reverse. -/
def strBody (acc : List Char) (cs : List Char) : Except String (String × List Char) :=
  match cs with
  | '"' :: r => .ok (String.mk acc.reverse, r)
  | '\\' :: 'u' :: h1 :: h2 :: h3 :: h4 :: r =>
      match hexVal h1, hexVal h2, hexVal h3, hexVal h4 with
      | some a, some b, some c, some d =>
          strBody (Char.ofNat (((a * 16 + b) * 16 + c) * 16 + d) :: acc) r
      | _, _, _, _ => .error "bad unicode escape"
  | '\\' :: e :: r =>
      match unescape1 e with
      | some c => strBody (c :: acc) r
      | none => .error "bad escape"
  | c :: r => strBody (c :: acc) r
  | [] => .error "unterminated string"

mutual

/-- Parses one JSON value, dispatching on the first character; structural on
the fuel. -/
def parseV : Nat → List Char → Except String (JVal × List Char)
  | 0, _ => .error "input exceeds modelled nesting fuel"
  | _ + 1, [] => .error "unexpected end of JSON input"
  | fuel + 1, c :: r =>
      if c = 'n' then
        match r with
        | 'u' :: 'l' :: 'l' :: r2 => .ok (.null, r2)
        | _ => .error "unexpected token"
      else if c = 't' then
        match r with
        | 'r' :: 'u' :: 'e' :: r2 => .ok (.bool true, r2)
        | _ => .error "unexpected token"
      else if c = 'f' then
        match r with
        | 'a' :: 'l' :: 's' :: 'e' :: r2 => .ok (.bool false, r2)
        | _ => .error "unexpected token"
      else if c = '"' then
        match strBody [] r with
        | .ok (s, r2) => .ok (.str s, r2)
        | .error e => .error e
      else if c = '[' then
        match r with
        | ']' :: r2 => .ok (.arr .nil, r2)
        | _ =>
            match parseItems fuel r with
            | .ok (es, r2) => .ok (.arr es, r2)
            | .error e => .error e
      else if c = '{' then
        match r with
        | '}' :: r2 => .ok (.obj .nil, r2)
        | _ =>
            match parseMembers fuel r with
            | .ok (ms, r2) => .ok (.obj ms, r2)
            | .error e => .error e
      else if c = '-' || isDigitCh c then
        match parseIntTok (c :: r) with
        | .ok (n, r2) => .ok (.num n, r2)
        | .error e => .error e
      else .error "unexpected token"

/-- Parses one or more comma-separated array elements up to `]`. -/
def parseItems : Nat → List Char → Except String (JItems × List Char)
  | 0, _ => .error "input exceeds modelled nesting fuel"
  | fuel + 1, cs =>
      match parseV fuel cs with
      | .error e => .error e
      | .ok (v, r) =>
          match r with
          | ',' :: r2 =>
              match parseItems fuel r2 with
              | .ok (vs, r3) => .ok (.cons v vs, r3)
              | .error e => .error e
          | ']' :: r2 => .ok (.cons v .nil, r2)
          | _ => .error "expected comma or closing bracket"

/-- Parses one or more comma-separated object members up to `}`. -/
def parseMembers : Nat → List Char → Except String (JMembers × List Char)
  | 0, _ => .error "input exceeds modelled nesting fuel"
  | fuel + 1, cs =>
      match cs with
      | '"' :: r =>
          match strBody [] r with
          | .error e => .error e
          | .ok (k, r1) =>
              match r1 with
              | ':' :: r2 =>
                  match parseV fuel r2 with
                  | .error e => .error e
                  | .ok (v, r3) =>
                      match r3 with
                      | ',' :: r4 =>
                          match parseMembers fuel r4 with
                          | .ok (ms, r5) => .ok (.cons k v ms, r5)
                          | .error e => .error e
                      | '}' :: r4 => .ok (.cons k v .nil, r4)
                      | _ => .error "expected comma or closing brace"
              | _ => .error "expected colon"
      | _ => .error "expected string key"

end

/-- One definitional step of `parseV` at successor fuel on a nonempty input. -/
theorem parseV_succ (fuel : Nat) (c : Char) (r : List Char) :
    parseV (fuel + 1) (c :: r) =
      (if c = 'n' then
        match r with
        | 'u' :: 'l' :: 'l' :: r2 => .ok (.null, r2)
        | _ => .error "unexpected token"
      else if c = 't' then
        match r with
        | 'r' :: 'u' :: 'e' :: r2 => .ok (.bool true, r2)
        | _ => .error "unexpected token"
      else if c = 'f' then
        match r with
        | 'a' :: 'l' :: 's' :: 'e' :: r2 => .ok (.bool false, r2)
        | _ => .error "unexpected token"
      else if c = '"' then
        match strBody [] r with
        | .ok (s, r2) => .ok (.str s, r2)
        | .error e => .error e
      else if c = '[' then
        match r with
        | ']' :: r2 => .ok (.arr .nil, r2)
        | _ =>
            match parseItems fuel r with
            | .ok (es, r2) => .ok (.arr es, r2)
            | .error e => .error e
      else if c = '{' then
        match r with
        | '}' :: r2 => .ok (.obj .nil, r2)
        | _ =>
            match parseMembers fuel r with
            | .ok (ms, r2) => .ok (.obj ms, r2)
            | .error e => .error e
      else if c = '-' || isDigitCh c then
        match parseIntTok (c :: r) with
        | .ok (n, r2) => .ok (.num n, r2)
        | .error e => .error e
      else .error "unexpected token") := rfl

/-- One definitional step of `parseItems` at successor fuel. -/
theorem parseItems_succ (fuel : Nat) (cs : List Char) :
    parseItems (fuel + 1) cs =
      (match parseV fuel cs with
      | .error e => .error e
      | .ok (v, r) =>
          match r with
          | ',' :: r2 =>
              match parseItems fuel r2 with
              | .ok (vs, r3) => .ok (.cons v vs, r3)
              | .error e => .error e
          | ']' :: r2 => .ok (.cons v .nil, r2)
          | _ => .error "expected comma or closing bracket") := rfl

/-- One definitional step of `parseMembers` at successor fuel. -/
theorem parseMembers_succ (fuel : Nat) (cs : List Char) :
    parseMembers (fuel + 1) cs =
      (match cs with
      | '"' :: r =>
          match strBody [] r with
          | .error e => .error e
          | .ok (k, r1) =>
              match r1 with
              | ':' :: r2 =>
                  match parseV fuel r2 with
                  | .error e => .error e
                  | .ok (v, r3) =>
                      match r3 with
                      | ',' :: r4 =>
                          match parseMembers fuel r4 with
                          | .ok (ms, r5) => .ok (.cons k v ms, r5)
                          | .error e => .error e
                      | '}' :: r4 => .ok (.cons k v .nil, r4)
                      | _ => .error "expected comma or closing brace"
              | _ => .error "expected colon"
      | _ => .error "expected string key") := rfl

/-- `JSON.parse` on the modelled fragment: parse one value and require the
whole input consumed. -/
def jsonParse (s : String) : Except String JVal :=
  match parseV (s.length + 1) s.toList with
  | .error e => .error e
  | .ok (v, []) => .ok v
  | .ok (_, _ :: _) => .error "unexpected trailing characters"

/-! ### Round-trip: the parser inverts the printer

These lemmas establish `jsonParse (jsonStringify v) = .ok v` for every
JSON value `v` (no `undefined` inside), which is what claim C8's
serialization round-trip rests on. -/

/-- Input that cannot extend a numeric token: empty, or headed by something
that is neither a digit nor `.`/`e`/`E`. -/
def stopsNum : List Char → Bool
  | [] => true
  | c :: _ => !(isDigitCh c || c = '.' || c = 'e' || c = 'E')

theorem decDigit_spec (d : Nat) (h : d < 10) :
    (decDigit d).toNat = 48 + d ∧ isDigitCh (decDigit d) = true := by
  interval_cases d <;> exact ⟨by decide, by decide⟩

theorem digitVal_decDigit (d : Nat) (h : d < 10) : digitVal (decDigit d) = d := by
  rw [digitVal, (decDigit_spec d h).1]
  omega

theorem natChars_all_digits (n : Nat) : ∀ c ∈ natChars n, isDigitCh c = true := by
  intro c hc
  rw [natChars_eq_digits] at hc
  by_cases h0 : n = 0
  · subst h0
    simp at hc
    subst hc
    decide
  · rw [if_neg h0, List.mem_map] at hc
    obtain ⟨d, hd, rfl⟩ := hc
    rw [List.mem_reverse] at hd
    exact (decDigit_spec d (Nat.digits_lt_base (by omega) hd)).2

theorem natChars_ne_nil (n : Nat) : natChars n ≠ [] := by
  rw [natChars_eq_digits]
  by_cases h0 : n = 0
  · subst h0
    simp
  · rw [if_neg h0]
    intro h
    rw [List.map_eq_nil_iff, List.reverse_eq_nil_iff] at h
    exact h0 (Nat.digits_eq_nil_iff_eq_zero.mp h)

theorem natChars_head (n : Nat) :
    ∃ c t, natChars n = c :: t ∧ isDigitCh c = true := by
  match h : natChars n with
  | [] => exact absurd h (natChars_ne_nil n)
  | c :: t => exact ⟨c, t, rfl, natChars_all_digits n c (h ▸ List.mem_cons_self c t)⟩

theorem foldl_base10 (l : List Nat) (a : Nat) :
    l.reverse.foldl (fun acc d => acc * 10 + d) a = a * 10 ^ l.length + Nat.ofDigits 10 l := by
  induction l generalizing a with
  | nil => simp
  | cons d t ih =>
      rw [List.reverse_cons, List.foldl_append, ih]
      simp only [List.foldl_cons, List.foldl_nil, List.length_cons, Nat.ofDigits_cons]
      ring

theorem digitsNum_natChars (n : Nat) : digitsNum (natChars n) = n := by
  by_cases h0 : n = 0
  · subst h0
    decide
  · rw [digitsNum, natChars_eq_digits, if_neg h0]
    rw [List.foldl_map]
    have hcong : (Nat.digits 10 n).reverse.foldl (fun a c => a * 10 + digitVal (decDigit c)) 0
        = (Nat.digits 10 n).reverse.foldl (fun a d => a * 10 + d) 0 := by
      apply List.foldl_ext
      intro a d hd
      rw [List.mem_reverse] at hd
      rw [digitVal_decDigit d (Nat.digits_lt_base (by omega) hd)]
    rw [hcong, foldl_base10, Nat.ofDigits_digits]
    omega

theorem grabDigits_stop {cs : List Char} (h : stopsNum cs = true) :
    grabDigits cs = ([], cs) := by
  match cs with
  | [] => rfl
  | c :: t =>
      simp only [stopsNum, Bool.not_eq_true', Bool.or_eq_false_iff] at h
      simp [grabDigits, h.1.1.1]

theorem grabDigits_run (ds : List Char) (hds : ∀ c ∈ ds, isDigitCh c = true)
    (rest : List Char) (hrest : grabDigits rest = ([], rest)) :
    grabDigits (ds ++ rest) = (ds, rest) := by
  induction ds with
  | nil => simpa using hrest
  | cons c t ih =>
      have hc : isDigitCh c = true := hds c (List.mem_cons_self c t)
      have ht := ih (fun x hx => hds x (List.mem_cons_of_mem c hx))
      simp [grabDigits, hc, ht]

theorem stopsNum_head {c : Char} {t : List Char} (h : stopsNum (c :: t) = true) :
    isDigitCh c = false ∧ c ≠ '.' ∧ c ≠ 'e' ∧ c ≠ 'E' := by
  simp only [stopsNum, Bool.not_eq_true', Bool.or_eq_false_iff,
    decide_eq_false_iff_not] at h
  exact ⟨h.1.1.1, h.1.1.2, h.1.2, h.2⟩

theorem digitCh_plain {c : Char} (h : isDigitCh c = true) :
    c ≠ '-' ∧ c ≠ '.' ∧ c ≠ 'e' ∧ c ≠ 'E' := by
  refine ⟨?_, ?_, ?_, ?_⟩ <;> (intro hc; subst hc; exact absurd h (by decide))

theorem parseIntTok_print (i : Int) (rest : List Char) (hr : stopsNum rest = true) :
    parseIntTok (intChars i ++ rest) = .ok (i, rest) := by
  have hrun := grabDigits_run (natChars i.natAbs) (natChars_all_digits _) rest
    (grabDigits_stop hr)
  by_cases hneg : i < 0
  · have harg : intChars i ++ rest = '-' :: (natChars i.natAbs ++ rest) := by
      simp [intChars, hneg]
    rw [harg, parseIntTok]
    simp only [hrun]
    rw [if_neg (by simp [natChars_ne_nil])]
    have hv : -(digitsNum (natChars i.natAbs) : Int) = i := by
      rw [digitsNum_natChars]
      omega
    cases rest with
    | nil =>
        simp [hv]
    | cons c t =>
        obtain ⟨hd, hdot, he, hE⟩ := stopsNum_head hr
        split
        · rename_i heq
          exact absurd (List.cons.inj heq).1 hdot
        · rename_i heq
          exact absurd (List.cons.inj heq).1 he
        · rename_i heq
          exact absurd (List.cons.inj heq).1 hE
        · simp [hv]
  · obtain ⟨c0, t0, h0, hc0⟩ := natChars_head i.natAbs
    obtain ⟨hm, _, _, _⟩ := digitCh_plain hc0
    have harg : intChars i ++ rest = c0 :: (t0 ++ rest) := by
      simp [intChars, hneg, h0]
    rw [harg, parseIntTok]
    · have hrun' : grabDigits (c0 :: (t0 ++ rest)) = (c0 :: t0, rest) := by
        rw [← List.cons_append, ← h0]
        exact hrun
      have hv : (digitsNum (c0 :: t0) : Int) = i := by
        rw [← h0, digitsNum_natChars]
        omega
      simp only [hrun']
      rw [if_neg (by simp)]
      cases rest with
      | nil =>
          simp [hv]
      | cons c t =>
          obtain ⟨hd, hdot, he, hE⟩ := stopsNum_head hr
          split
          · rename_i heq
            exact absurd (List.cons.inj heq).1 hdot
          · rename_i heq
            exact absurd (List.cons.inj heq).1 he
          · rename_i heq
            exact absurd (List.cons.inj heq).1 hE
          · simp [hv]
    · intro r heq
      exact absurd (List.cons.inj heq).1 hm

theorem hexVal_hexDigitChar (k : Nat) (h : k < 16) : hexVal (hexDigitChar k) = some k := by
  interval_cases k <;> decide

theorem strBody_escape (c : Char) (acc rest : List Char) :
    strBody acc (escapeChar c ++ rest) = strBody (c :: acc) rest := by
  rw [escapeChar]
  by_cases h1 : c = '"'
  · subst h1
    simp [strBody, unescape1]
  rw [if_neg h1]
  by_cases h2 : c = '\\'
  · subst h2
    simp [strBody, unescape1]
  rw [if_neg h2]
  by_cases h3 : c = Char.ofNat 8
  · subst h3
    simp [strBody, unescape1]
  rw [if_neg h3]
  by_cases h4 : c = Char.ofNat 12
  · subst h4
    simp [strBody, unescape1]
  rw [if_neg h4]
  by_cases h5 : c = '\n'
  · subst h5
    simp [strBody, unescape1]
  rw [if_neg h5]
  by_cases h6 : c = '\r'
  · subst h6
    simp [strBody, unescape1]
  rw [if_neg h6]
  by_cases h7 : c = '\t'
  · subst h7
    simp [strBody, unescape1]
  rw [if_neg h7]
  by_cases h8 : c.toNat < 32
  · rw [if_pos h8]
    have hq : c.toNat / 16 < 16 := by omega
    have hrm : c.toNat % 16 < 16 := by omega
    simp only [List.cons_append, strBody, hexVal_hexDigitChar _ hq,
      hexVal_hexDigitChar _ hrm]
    have hx : hexVal '0' = some 0 := by decide
    simp only [hx]
    have harith : ((0 * 16 + 0) * 16 + c.toNat / 16) * 16 + c.toNat % 16 = c.toNat := by
      omega
    rw [harith, Char.ofNat_toNat]
    simp
  · rw [if_neg h8]
    show strBody acc (c :: rest) = strBody (c :: acc) rest
    rw [strBody.eq_def]
    split <;> simp_all

theorem strBody_flat (l : List Char) :
    ∀ (acc rest : List Char),
      strBody acc (l.flatMap escapeChar ++ '"' :: rest)
        = .ok (String.mk (acc.reverse ++ l), rest) := by
  induction l with
  | nil =>
      intro acc rest
      simp [strBody]
  | cons c t ih =>
      intro acc rest
      rw [List.flatMap_cons, List.append_assoc, strBody_escape, ih]
      simp

theorem quote_rt (s : String) (rest : List Char) :
    strBody [] (s.toList.flatMap escapeChar ++ '"' :: rest) = .ok (s, rest) := by
  rw [strBody_flat]
  simp

theorem stopsNum_rb (t : List Char) : stopsNum (']' :: t) = true := rfl

theorem stopsNum_rc (t : List Char) : stopsNum ('}' :: t) = true := rfl

theorem stopsNum_comma (t : List Char) : stopsNum (',' :: t) = true := rfl

theorem intChars_head (i : Int) :
    ∃ c t, intChars i = c :: t ∧ (c = '-' ∨ isDigitCh c = true) := by
  by_cases hneg : i < 0
  · exact ⟨'-', natChars i.natAbs, by simp [intChars, hneg], Or.inl rfl⟩
  · obtain ⟨c, t, h0, hc⟩ := natChars_head i.natAbs
    exact ⟨c, t, by simp [intChars, hneg, h0], Or.inr hc⟩

theorem num_start_plain {c : Char} (h : c = '-' ∨ isDigitCh c = true) :
    c ≠ 'n' ∧ c ≠ 't' ∧ c ≠ 'f' ∧ c ≠ '"' ∧ c ≠ '[' ∧ c ≠ '{' ∧ c ≠ ']' ∧ c ≠ '}' := by
  rcases h with h | h
  · subst h
    refine ⟨?_, ?_, ?_, ?_, ?_, ?_, ?_, ?_⟩ <;> decide
  · refine ⟨?_, ?_, ?_, ?_, ?_, ?_, ?_, ?_⟩ <;>
      (intro hc; subst hc; exact absurd h (by decide))

theorem printV_starts (v : JVal) :
    ∃ c t, printV v = c :: t ∧ c ≠ ']' ∧ c ≠ '}' := by
  cases v with
  | undef => exact ⟨'n', ['u', 'l', 'l'], by simp [printV, nullChars], by decide, by decide⟩
  | null => exact ⟨'n', ['u', 'l', 'l'], by simp [printV, nullChars], by decide, by decide⟩
  | bool b => cases b with
      | true => exact ⟨'t', ['r', 'u', 'e'], by simp [printV, trueChars], by decide, by decide⟩
      | false => exact ⟨'f', ['a', 'l', 's', 'e'], by simp [printV, falseChars],
          by decide, by decide⟩
  | str s =>
      exact ⟨'"', s.toList.flatMap escapeChar ++ ['"'], by simp [printV, quoteChars],
        by decide, by decide⟩
  | arr es => exact ⟨'[', printItems es ++ [']'], by simp [printV], by decide, by decide⟩
  | obj ms =>
      exact ⟨'{', printMembers ms ++ ['}'], by simp [printV],
        by decide, by decide⟩
  | num i =>
      obtain ⟨c, t, h0, hc⟩ := intChars_head i
      obtain ⟨_, _, _, _, _, _, hb, hd⟩ := num_start_plain hc
      exact ⟨c, t, by simp [printV, h0], hb, hd⟩

theorem printItems_starts (e : JVal) (es : JItems) :
    ∃ c t, printItems (.cons e es) = c :: t ∧ c ≠ ']' := by
  obtain ⟨c, t, h0, hb, _⟩ := printV_starts e
  cases es with
  | nil => exact ⟨c, t, by simp [printItems, h0], hb⟩
  | cons x xs =>
      exact ⟨c, t ++ ',' :: printItems (.cons x xs), by simp [printItems, h0], hb⟩

mutual

/-- The parser inverts the printer on a single value, for every continuation
that cannot extend a numeric token and fuel above the printed length. -/
theorem rt_val : ∀ (v : JVal) (fuel : Nat) (rest : List Char),
    noUndefV v = true → (printV v).length < fuel → stopsNum rest = true →
    parseV fuel (printV v ++ rest) = .ok (v, rest)
  | .undef, _, _, hnu, _, _ => by simp [noUndefV] at hnu
  | .null, fuel, rest, _, hfu, _ => by
      cases fuel with
      | zero => exact absurd hfu (Nat.not_lt_zero _)
      | succ f => simp [printV, nullChars, parseV]
  | .bool true, fuel, rest, _, hfu, _ => by
      cases fuel with
      | zero => exact absurd hfu (Nat.not_lt_zero _)
      | succ f => simp [printV, trueChars, parseV]
  | .bool false, fuel, rest, _, hfu, _ => by
      cases fuel with
      | zero => exact absurd hfu (Nat.not_lt_zero _)
      | succ f => simp [printV, falseChars, parseV]
  | .num i, fuel, rest, _, hfu, hr => by
      cases fuel with
      | zero => exact absurd hfu (Nat.not_lt_zero _)
      | succ f =>
          obtain ⟨c0, t0, h0, hst⟩ := intChars_head i
          obtain ⟨hn, ht2, hf2, hq2, hlb, hlc, _, _⟩ := num_start_plain hst
          have hcond : (c0 = '-' || isDigitCh c0) = true := by
            rcases hst with h | h
            · simp [h]
            · simp [h]
          have harg : printV (.num i) ++ rest = c0 :: (t0 ++ rest) := by
            simp [printV, h0]
          rw [harg, parseV_succ]
          rw [if_neg hn, if_neg ht2, if_neg hf2, if_neg hq2, if_neg hlb, if_neg hlc,
            if_pos hcond]
          have hback : c0 :: (t0 ++ rest) = intChars i ++ rest := by
            rw [h0]
            rfl
          rw [hback, parseIntTok_print i rest hr]
  | .str s, fuel, rest, _, hfu, _ => by
      cases fuel with
      | zero => exact absurd hfu (Nat.not_lt_zero _)
      | succ f =>
          have harg : printV (.str s) ++ rest
              = '"' :: (s.toList.flatMap escapeChar ++ '"' :: rest) := by
            simp [printV, quoteChars]
          rw [harg, parseV_succ]
          rw [if_neg (by decide : ¬('"' : Char) = 'n'), if_neg (by decide : ¬('"' : Char) = 't'),
            if_neg (by decide : ¬('"' : Char) = 'f'), if_pos rfl, quote_rt]
  | .arr .nil, fuel, rest, _, hfu, _ => by
      cases fuel with
      | zero => exact absurd hfu (Nat.not_lt_zero _)
      | succ f =>
          have harg : printV (.arr .nil) ++ rest = '[' :: ']' :: rest := by
            simp [printV, printItems]
          rw [harg, parseV_succ]
          rw [if_neg (by decide : ¬('[' : Char) = 'n'), if_neg (by decide : ¬('[' : Char) = 't'),
            if_neg (by decide : ¬('[' : Char) = 'f'), if_neg (by decide : ¬('[' : Char) = '"'),
            if_pos rfl]
          rfl
  | .arr (.cons e es), fuel, rest, hnu, hfu, _ => by
      cases fuel with
      | zero => exact absurd hfu (Nat.not_lt_zero _)
      | succ f =>
          obtain ⟨c1, t1, hpi, hc1⟩ := printItems_starts e es
          have harg : printV (.arr (.cons e es)) ++ rest
              = '[' :: (printItems (.cons e es) ++ ']' :: rest) := by
            simp [printV]
          rw [harg, parseV_succ]
          rw [if_neg (by decide : ¬('[' : Char) = 'n'), if_neg (by decide : ¬('[' : Char) = 't'),
            if_neg (by decide : ¬('[' : Char) = 'f'), if_neg (by decide : ¬('[' : Char) = '"'),
            if_pos rfl]
          have hnu' : noUndefI (.cons e es) = true := by
            simpa [noUndefV] using hnu
          have hfu' : (printItems (.cons e es)).length + 1 < f := by
            rw [printV] at hfu
            simp only [List.length_cons, List.length_append, List.length_singleton] at hfu
            omega
          have hkey := rt_items e es f rest hnu' hfu'
          rw [hpi, List.cons_append]
          split
          · rename_i heq
            exact absurd (List.cons.inj heq).1 hc1
          · rw [← List.cons_append, ← hpi, hkey]
  | .obj .nil, fuel, rest, hnu, hfu, _ => by
      cases fuel with
      | zero => exact absurd hfu (Nat.not_lt_zero _)
      | succ f =>
          have harg : printV (.obj .nil) ++ rest = '{' :: '}' :: rest := by
            rw [printV]
            simp [printMembers]
          rw [harg, parseV_succ]
          rw [if_neg (by decide : ¬('{' : Char) = 'n'), if_neg (by decide : ¬('{' : Char) = 't'),
            if_neg (by decide : ¬('{' : Char) = 'f'), if_neg (by decide : ¬('{' : Char) = '"'),
            if_neg (by decide : ¬('{' : Char) = '['), if_pos rfl]
          rfl
  | .obj (.cons k v t), fuel, rest, hnu, hfu, _ => by
      have hnm : noUndefM (.cons k v t) = true := by simpa [noUndefV] using hnu
      cases fuel with
      | zero => exact absurd hfu (Nat.not_lt_zero _)
      | succ f =>
          have harg : printV (.obj (.cons k v t)) ++ rest
              = '{' :: (printMembers (.cons k v t) ++ '}' :: rest) := by
            rw [printV]
            simp
          rw [harg, parseV_succ]
          rw [if_neg (by decide : ¬('{' : Char) = 'n'), if_neg (by decide : ¬('{' : Char) = 't'),
            if_neg (by decide : ¬('{' : Char) = 'f'), if_neg (by decide : ¬('{' : Char) = '"'),
            if_neg (by decide : ¬('{' : Char) = '['), if_pos rfl]
          have hfu' : (printMembers (.cons k v t)).length + 1 < f := by
            rw [printV] at hfu
            simp only [List.length_cons, List.length_append, List.length_singleton] at hfu
            omega
          have hkey := rt_members k v t f rest hnm hfu'
          have hstart : ∃ t2, printMembers (.cons k v t) ++ '}' :: rest = '"' :: t2 := by
            cases t with
            | nil =>
                exact ⟨k.toList.flatMap escapeChar ++ '"' :: ':' :: (printV v ++ '}' :: rest),
                  by simp [printMembers, quoteChars]⟩
            | cons k2 v2 t2 =>
                exact ⟨k.toList.flatMap escapeChar
                    ++ '"' :: ':' :: (printV v
                        ++ ',' :: (printMembers (.cons k2 v2 t2) ++ '}' :: rest)),
                  by simp [printMembers, quoteChars]⟩
          obtain ⟨t2, ht2⟩ := hstart
          rw [ht2]
          split
          · rename_i heq
            exact absurd (List.cons.inj heq).1 (by decide)
          · rw [← ht2, hkey]
termination_by v _ _ _ _ _ => sizeOf v
decreasing_by all_goals (simp_wf; try omega)

/-- The parser inverts the printer on a nonempty comma-separated element
list followed by the closing bracket. -/
theorem rt_items : ∀ (e : JVal) (es : JItems) (fuel : Nat) (rest : List Char),
    noUndefI (.cons e es) = true → (printItems (.cons e es)).length + 1 < fuel →
    parseItems fuel (printItems (.cons e es) ++ ']' :: rest) = .ok (.cons e es, rest)
  | e, .nil, fuel, rest, hnu, hfu => by
      cases fuel with
      | zero => exact absurd hfu (Nat.not_lt_zero _)
      | succ f =>
          have hne : noUndefV e = true := by
            simpa [noUndefI] using hnu
          have hfe : (printV e).length < f := by
            simp only [printItems] at hfu
            omega
          have hv := rt_val e f (']' :: rest) hne hfe (stopsNum_rb rest)
          rw [show printItems (.cons e .nil) = printV e from by simp [printItems],
            parseItems_succ]
          simp only [hv]
  | e, .cons x xs, fuel, rest, hnu, hfu => by
      cases fuel with
      | zero => exact absurd hfu (Nat.not_lt_zero _)
      | succ f =>
          have hne : noUndefV e = true := by
            simp only [noUndefI, Bool.and_eq_true] at hnu
            exact hnu.1
          have hnt : noUndefI (.cons x xs) = true := by
            simp only [noUndefI, Bool.and_eq_true] at hnu
            simp [noUndefI, hnu.2.1, hnu.2.2]
          have hlen : (printItems (.cons e (.cons x xs))).length
              = (printV e).length + 1 + (printItems (.cons x xs)).length := by
            simp [printItems]
            omega
          have hfe : (printV e).length < f := by omega
          have hft : (printItems (.cons x xs)).length + 1 < f := by omega
          have harg : printItems (.cons e (.cons x xs)) ++ ']' :: rest
              = printV e ++ ',' :: (printItems (.cons x xs) ++ ']' :: rest) := by
            simp [printItems]
          have hv := rt_val e f (',' :: (printItems (.cons x xs) ++ ']' :: rest)) hne hfe
            (stopsNum_comma _)
          have hkey := rt_items x xs f rest hnt hft
          rw [harg, parseItems_succ]
          simp only [hv, hkey]
termination_by e es _ _ _ _ => sizeOf e + sizeOf es
decreasing_by all_goals (simp_wf; try omega)

/-- The parser inverts the printer on a nonempty comma-separated member
list followed by the closing brace. -/
theorem rt_members : ∀ (k : String) (v : JVal) (ms : JMembers) (fuel : Nat)
    (rest : List Char),
    noUndefM (.cons k v ms) = true → (printMembers (.cons k v ms)).length + 1 < fuel →
    parseMembers fuel (printMembers (.cons k v ms) ++ '}' :: rest)
      = .ok (.cons k v ms, rest)
  | k, v, .nil, fuel, rest, hnu, hfu => by
      cases fuel with
      | zero => exact absurd hfu (Nat.not_lt_zero _)
      | succ f =>
          have hne : noUndefV v = true := by
            simpa [noUndefM] using hnu
          have hfe : (printV v).length < f := by
            simp only [printMembers, List.length_append, List.length_cons] at hfu
            omega
          have harg : printMembers (.cons k v .nil) ++ '}' :: rest
              = '"' :: (k.toList.flatMap escapeChar
                  ++ '"' :: (':' :: (printV v ++ '}' :: rest))) := by
            simp [printMembers, quoteChars]
          have hv := rt_val v f ('}' :: rest) hne hfe (stopsNum_rc rest)
          rw [harg, parseMembers_succ]
          simp only [quote_rt, hv]
  | k, v, .cons k2 v2 ms, fuel, rest, hnu, hfu => by
      cases fuel with
      | zero => exact absurd hfu (Nat.not_lt_zero _)
      | succ f =>
          have hne : noUndefV v = true := by
            simp only [noUndefM, Bool.and_eq_true] at hnu
            exact hnu.1
          have hnt : noUndefM (.cons k2 v2 ms) = true := by
            simp only [noUndefM, Bool.and_eq_true] at hnu
            simp [noUndefM, hnu.2.1, hnu.2.2]
          have hlen : (printMembers (.cons k v (.cons k2 v2 ms))).length
              = (quoteChars k).length + 1 + (printV v).length + 1
                + (printMembers (.cons k2 v2 ms)).length := by
            simp [printMembers]
            omega
          have hfe : (printV v).length < f := by
            simp only [quoteChars, List.length_cons, List.length_append] at hlen
            omega
          have hft : (printMembers (.cons k2 v2 ms)).length + 1 < f := by omega
          have harg : printMembers (.cons k v (.cons k2 v2 ms)) ++ '}' :: rest
              = '"' :: (k.toList.flatMap escapeChar
                  ++ '"' :: (':' :: (printV v
                      ++ ',' :: (printMembers (.cons k2 v2 ms) ++ '}' :: rest)))) := by
            simp [printMembers, quoteChars]
          have hv := rt_val v f (',' :: (printMembers (.cons k2 v2 ms) ++ '}' :: rest))
            hne hfe (stopsNum_comma _)
          have hkey := rt_members k2 v2 ms f rest hnt hft
          rw [harg, parseMembers_succ]
          simp only [quote_rt, hv, hkey]
termination_by _ v ms _ _ _ _ => sizeOf v + sizeOf ms
decreasing_by all_goals (simp_wf; try omega)

end

/-- Round-trip of the serialization fragment: parsing a stringified JSON
value recovers it exactly. -/
theorem jsonParse_stringify (v : JVal) (h : noUndefV v = true) :
    jsonParse (jsonStringify v) = .ok v := by
  have hv := rt_val v ((printV v).length + 1) [] h (by omega) rfl
  rw [List.append_nil] at hv
  rw [jsonParse, jsonStringify, stripV_id v h]
  have hlen : (String.mk (printV v)).length = (printV v).length := rfl
  have hlist : (String.mk (printV v)).toList = printV v := rfl
  rw [hlen, hlist, hv]

/-! ### Schema helpers — `src/utils/schemas.ts`

`createExtractionSchema`, `validateSchemaFormat`, `schemaToJson` and
`parseSchemaJson`, translated clause by clause.  The optional `name`
parameter models the JavaScript default parameter: the default applies only
when the argument is omitted (`none`), exactly as `undefined` triggers a JS
default (an explicit empty string does not). -/

def createExtractionSchema (fields : JMembers) (name : Option String) : JVal :=
  jobj [("type", .str "json_schema"),
    ("json_schema", jobj [
      ("name", .str (name.getD "document_schema")),
      ("schema", jobj [
        ("type", .str "object"),
        ("properties", .obj fields)])])]

/-- JavaScript `x && typeof x === 'object'` on a candidate: a non-null
object or array. -/
def objectLike (v : JVal) : Bool := v.truthy && v.typeOf == "object"

def validateSchemaFormat (schema : JVal) : Except String Unit :=
  if ¬ (objectLike schema = true) then .error "Schema must be an object"
  else if ¬ (schema.getF "type" = .str "json_schema") then
    .error "Schema must have type \"json_schema\""
  else
    let jsonSchema := schema.getF "json_schema"
    if ¬ (objectLike jsonSchema = true) then .error "Schema must have \"json_schema\" property"
    else if ¬ ((jsonSchema.getF "name").truthy = true
        ∧ (jsonSchema.getF "name").typeOf = "string") then
      .error "Schema must have a \"name\" property"
    else if ¬ (objectLike (jsonSchema.getF "schema") = true) then
      .error "Schema must have a \"schema\" property"
    else if ¬ ((jsonSchema.getF "schema").getF "type" = .str "object") then
      .error "Schema type must be \"object\""
    else if ¬ (objectLike ((jsonSchema.getF "schema").getF "properties") = true) then
      .error "Schema must have \"properties\" object"
    else .ok ()

def schemaToJson (schema : JVal) : String := jsonStringify schema

def parseSchemaJson (schemaJson : String) : Except String JVal :=
  match jsonParse schemaJson with
  | .error m => .error ("Invalid JSON: " ++ m)
  | .ok schema =>
      match validateSchemaFormat schema with
      | .error e => .error e
      | .ok _ => .ok schema

/-! ### Constants — `src/utils/constants.ts` -/

namespace API_ENDPOINTS

def DOCUMENT_DIGITIZATION : String := "https://api.upstage.ai/v1/document-digitization"

def INFORMATION_EXTRACTION : String := "https://api.upstage.ai/v1/information-extraction"

def SCHEMA_GENERATION : String := "https://api.upstage.ai/v1/information-extraction/schema-generation"

def DOCUMENT_CLASSIFICATION : String := "https://api.upstage.ai/v1/document-classification"

end API_ENDPOINTS

namespace ALLOWED_EXTENSIONS

def DOCUMENT_PARSING : List String :=
  [".pdf", ".jpeg", ".jpg", ".png", ".tiff", ".tif", ".bmp", ".gif", ".webp"]

def INFO_EXTRACTION : List String :=
  [".jpeg", ".jpg", ".png", ".bmp", ".pdf", ".tiff", ".tif", ".heic", ".docx", ".pptx", ".xlsx"]

end ALLOWED_EXTENSIONS

namespace FILE_LIMITS

def MAX_SIZE : Nat := 50 * 1024 * 1024

def MAX_PAGES : Nat := 100

end FILE_LIMITS

namespace API_CONFIG

def TIMEOUT : Nat := 5 * 60 * 1000

def RETRY_ATTEMPTS : Nat := 3

def RETRY_DELAY : Nat := 1000

end API_CONFIG

/-! ### File validator — `src/utils/validators.ts`

The filesystem is a lookup structure: `stat` models `fs.stat` (`none` is
`ENOENT`), `jsonContent` the parsed content `readJsonFile` would produce,
and `base64` the base64 text `readFileAsBase64` would produce. -/

structure FStat where
  isFile : Bool
  size : Nat
deriving DecidableEq

structure FileSys where
  stat : String → Option FStat
  jsonContent : String → Option JVal
  base64 : String → String

/-- Characters of the final path segment (after the last `/`). -/
def afterLastSlash (cs : List Char) : List Char :=
  cs.foldl (fun acc c => if c = '/' then [] else acc ++ [c]) []

/-- Node `path.basename`. -/
def basenameOf (p : String) : String := String.mk (afterLastSlash p.toList)

/-- Node `path.extname`: the suffix from the last dot of the final path
segment, empty when there is no dot or the only dot starts the segment. -/
def extname (p : String) : String :=
  let b := afterLastSlash p.toList
  let e := (b.foldl (fun (cur : Option (List Char)) c =>
    if c = '.' then some ['.']
    else match cur with
      | some l => some (l ++ [c])
      | none => none) none).getD []
  if e.length = b.length then "" else String.mk e

/-- `String.prototype.toLowerCase` (ASCII suffices for the extension sets). -/
def lowerStr (s : String) : String := String.mk (s.toList.map Char.toLower)

/-- `", "`-separated join, as `allowedExtensions.join(', ')` produces. -/
def joinCommaSp : List String → String
  | [] => ""
  | [x] => x
  | x :: xs => x ++ ", " ++ joinCommaSp xs

/-- Rendering of `(bytes / (1024*1024)).toFixed(2)`: two decimals, rounded
to nearest.  The float formatting of the original is reproduced up to
rounding of ties; no claim depends on this text. -/
def mbTwoDecimals (bytes : Nat) : String :=
  let scaled := (bytes * 100 + 524288) / 1048576
  String.mk (natChars (scaled / 100)) ++ "."
    ++ (if scaled % 100 < 10 then "0" else "") ++ String.mk (natChars (scaled % 100))

/-- Rendering of `(maxSize / (1024*1024)).toFixed(0)`. -/
def mbZeroDecimals (bytes : Nat) : String :=
  String.mk (natChars ((bytes + 524288) / 1048576))

def validateFileExists (fs : FileSys) (filePath : String) : Except String Unit :=
  match fs.stat filePath with
  | none => .error ("File not found: " ++ filePath)
  | some stats =>
      if ¬ (stats.isFile = true) then .error ("Path is not a file: " ++ filePath)
      else .ok ()

def validateFileSize (fs : FileSys) (filePath : String) (maxSize : Nat) : Except String Unit :=
  match fs.stat filePath with
  | none => .error ("ENOENT: no such file or directory, stat " ++ filePath)
  | some stats =>
      if stats.size > maxSize then
        .error ("File size (" ++ mbTwoDecimals stats.size
          ++ "MB) exceeds maximum allowed size (" ++ mbZeroDecimals maxSize ++ "MB)")
      else .ok ()

def validateFileExtension (filePath : String) (allowedExtensions : List String) :
    Except String Unit :=
  let ext := lowerStr (extname filePath)
  if ¬ (allowedExtensions.contains ext = true) then
    .error ("Unsupported file format: " ++ ext ++ ". Supported formats: "
      ++ joinCommaSp allowedExtensions)
  else .ok ()

def validateDocumentFile (fs : FileSys) (filePath : String) : Except String Unit :=
  match validateFileExists fs filePath with
  | .error e => .error e
  | .ok _ =>
      match validateFileExtension filePath ALLOWED_EXTENSIONS.DOCUMENT_PARSING with
      | .error e => .error e
      | .ok _ => validateFileSize fs filePath FILE_LIMITS.MAX_SIZE

def validateExtractionFile (fs : FileSys) (filePath : String) : Except String Unit :=
  match validateFileExists fs filePath with
  | .error e => .error e
  | .ok _ =>
      match validateFileExtension filePath ALLOWED_EXTENSIONS.INFO_EXTRACTION with
      | .error e => .error e
      | .ok _ => validateFileSize fs filePath FILE_LIMITS.MAX_SIZE

/-! ### File utilities — `src/utils/fileUtils.ts`

`getOutputDirectory` takes the home directory as an explicit parameter
(`os.homedir()`), and `generateTimestampedFilename` the current ISO time
string (`new Date().toISOString()`), keeping the embedding deterministic. -/

def getOutputDirectory (home subDir : String) : String :=
  home ++ "/.mcp-upstage/outputs/" ++ subDir

/-- Strips a nonempty suffix, as `path.basename(p, ext)` does. -/
def dropSuffixL (b e : List Char) : List Char :=
  if e ≠ [] ∧ e.isSuffixOf b then b.take (b.length - e.length) else b

/-- `${baseName}_${timestamp}_${suffix}.json` where the timestamp is the ISO
time with `:`/`.` replaced by `-` and the trailing 5 characters cut
(`.replace(/[:.]/g, '-').slice(0, -5)`). -/
def generateTimestampedFilename (nowIso originalPath suffix : String) : String :=
  let stamp := (nowIso.toList.map (fun c => if c = ':' ∨ c = '.' then '-' else c)).take
    (nowIso.length - 5)
  let base := dropSuffixL (afterLastSlash originalPath.toList) (extname originalPath).toList
  String.mk base ++ "_" ++ String.mk stamp ++ "_" ++ suffix ++ ".json"

/-- `getMimeType`: extension-to-MIME table with `application/octet-stream`
fallback. -/
def getMimeType (filePath : String) : String :=
  let ext := lowerStr (extname filePath)
  if ext = ".jpg" then "image/jpeg"
  else if ext = ".jpeg" then "image/jpeg"
  else if ext = ".png" then "image/png"
  else if ext = ".bmp" then "image/bmp"
  else if ext = ".gif" then "image/gif"
  else if ext = ".tiff" then "image/tiff"
  else if ext = ".tif" then "image/tiff"
  else if ext = ".heic" then "image/heic"
  else if ext = ".pdf" then "application/pdf"
  else if ext = ".docx" then
    "application/vnd.openxmlformats-officedocument.wordprocessingml.document"
  else if ext = ".xlsx" then
    "application/vnd.openxmlformats-officedocument.spreadsheetml.sheet"
  else if ext = ".pptx" then
    "application/vnd.openxmlformats-officedocument.presentationml.presentation"
  else "application/octet-stream"

/-- `readJsonFile`: read and `JSON.parse` a file; the filesystem model holds
the parsed value directly (`none` is `ENOENT`). -/
def readJsonFile (fs : FileSys) (filePath : String) : Except String JVal :=
  match fs.jsonContent filePath with
  | some v => .ok v
  | none => .error ("ENOENT: no such file or directory, open " ++ filePath)

/-! ### API client — `src/utils/apiClient.ts`

`ApiClient.makeRequest` wraps one endpoint call in the npm `retry` package
(`retries = RETRY_ATTEMPTS - 1`, so 3 total attempts).  The simulated
endpoint maps the attempt number (1-based) to that attempt's outcome.  An
`AxiosError` carries `error.response?.status`; its message argument below
stands for `error.response?.data?.message || error.message`, already
resolved.  A non-Axios thrown error reaches the `else` branch of the source
and is used unwrapped.  On exhaustion the source rejects with
`retryOperation.mainError()`: the error whose message occurred most often,
later errors winning ties — not necessarily the last error. -/

inductive AttemptOutcome where
  | success (payload : JVal)
  | httpError (status : Nat) (message : String)
  | networkError (message : String)
  | thrownError (message : String)
deriving DecidableEq

/-- `status >= 400 && status < 500 && status !== 429`: the source's
do-not-retry test for client errors. -/
def nonRetryableStatus (status : Nat) : Bool :=
  400 ≤ status && status < 500 && status != 429

/-- Occurrence counting for `mainError` (message-keyed). -/
def bumpCount : List (String × Nat) → String → List (String × Nat)
  | [], m => [(m, 1)]
  | (k, n) :: t, m => if k = m then (k, n + 1) :: t else (k, n) :: bumpCount t m

def countOf : List (String × Nat) → String → Nat
  | [], _ => 0
  | (k, n) :: t, m => if k = m then n else countOf t m

/-- The npm `retry` package's `mainError()`: walk the recorded errors,
keeping the one whose message has the highest running count, replacing the
champion on ties (`count >= mainErrorCount`). -/
def mainErrorGo : List String → List (String × Nat) → Option String → Nat → Option String
  | [], _, best, _ => best
  | m :: rest, counts, best, bestCount =>
      let counts2 := bumpCount counts m
      let c := countOf counts2 m
      if c ≥ bestCount then mainErrorGo rest counts2 (some m) c
      else mainErrorGo rest counts2 best bestCount

def mainError (errs : List String) : Option String := mainErrorGo errs [] none 0

structure ReqResult where
  outcome : Except String JVal
  attempts : Nat
deriving DecidableEq

/-- The retry loop of `makeRequest`: `retriesLeft` counts remaining retries
(initially `RETRY_ATTEMPTS - 1`), `attemptNo` the 1-based attempt being
made, `errs` the messages pushed into the operation so far. -/
def retryGo (operation : String) (endpoint : Nat → AttemptOutcome) :
    Nat → Nat → List String → ReqResult
  | retriesLeft, attemptNo, errs =>
      match endpoint attemptNo with
      | .success payload => ⟨.ok payload, attemptNo⟩
      | .httpError status m =>
          if nonRetryableStatus status then
            ⟨.error (operation ++ " failed: " ++ m), attemptNo⟩
          else
            let msg := operation ++ " failed: " ++ m
            let errs2 := errs ++ [msg]
            match retriesLeft with
            | 0 => ⟨.error ((mainError errs2).getD msg), attemptNo⟩
            | r + 1 => retryGo operation endpoint r (attemptNo + 1) errs2
      | .networkError m =>
          let msg := operation ++ " failed: " ++ m
          let errs2 := errs ++ [msg]
          match retriesLeft with
          | 0 => ⟨.error ((mainError errs2).getD msg), attemptNo⟩
          | r + 1 => retryGo operation endpoint r (attemptNo + 1) errs2
      | .thrownError m =>
          let errs2 := errs ++ [m]
          match retriesLeft with
          | 0 => ⟨.error ((mainError errs2).getD m), attemptNo⟩
          | r + 1 => retryGo operation endpoint r (attemptNo + 1) errs2

/-- `makeRequest` / `makeApiRequest`: one logical call with up to
`RETRY_ATTEMPTS` attempts against the endpoint. -/
def makeRequest (operation : String) (endpoint : Nat → AttemptOutcome) : ReqResult :=
  retryGo operation endpoint (API_CONFIG.RETRY_ATTEMPTS - 1) 1 []

/-! ### `JSON.stringify(value, null, 2)` — the indented form the handlers
return to the caller.  Follows the ECMAScript algorithm for a two-space
gap: members as `"key": value`, elements one per line, closing bracket at
the enclosing indentation. -/

/-- Two-space indentation at nesting level `lvl`. -/
def indentChars (lvl : Nat) : List Char := List.replicate (2 * lvl) ' '

mutual

def prettyV : Nat → JVal → List Char
  | _, .undef => nullChars
  | _, .null => nullChars
  | _, .bool true => trueChars
  | _, .bool false => falseChars
  | _, .num n => intChars n
  | _, .str s => quoteChars s
  | _, .arr .nil => ['[', ']']
  | lvl, .arr (.cons v t) =>
      '[' :: '\n' :: (prettyItems (lvl + 1) (.cons v t) ++ '\n' :: (indentChars lvl ++ [']']))
  | _, .obj .nil => ['{', '}']
  | lvl, .obj (.cons k v t) =>
      '{' :: '\n' :: (prettyMembers (lvl + 1) (.cons k v t) ++ '\n' :: (indentChars lvl ++ ['}']))

def prettyItems : Nat → JItems → List Char
  | _, .nil => []
  | lvl, .cons v .nil => indentChars lvl ++ prettyV lvl v
  | lvl, .cons v rest => indentChars lvl ++ prettyV lvl v ++ ',' :: '\n' :: prettyItems lvl rest

def prettyMembers : Nat → JMembers → List Char
  | _, .nil => []
  | lvl, .cons k v .nil => indentChars lvl ++ quoteChars k ++ ':' :: ' ' :: prettyV lvl v
  | lvl, .cons k v rest =>
      indentChars lvl ++ quoteChars k ++ ':' :: ' ' :: prettyV lvl v
        ++ ',' :: '\n' :: prettyMembers lvl rest

end

/-- `JSON.stringify(v, null, 2)`. -/
def jsonStringifyPretty (v : JVal) : String := String.mk (prettyV 0 (stripV v))

/-! ### Handler plumbing

A progress sink is the `onProgress` callback: it receives the progress
value (the `total` is always 100 in the source) and may fail — the source
`await`s it with no `try`/`catch`.  `RunOut` is a handler run's observable
outcome: its result (resolved string or thrown message), the number of
outbound network attempts made, and the JSON files written (path and
value), in order. -/

def Sink : Type := Nat → Except String Unit

def callSink (s : Option Sink) (p : Nat) : Except String Unit :=
  match s with
  | none => .ok ()
  | some f => f p

structure RunOut where
  result : Except String String
  netAttempts : Nat
  writes : List (String × JVal)
deriving DecidableEq

/-- The remote service: an endpoint URL and a request body determine, per
attempt number, that attempt's outcome. -/
def Api : Type := String → JVal → Nat → AttemptOutcome

/-- `JSON.parse` applied to a runtime value, as the handlers do on
`choices[0].message.content`; modelled for string arguments, the only case
the pipelines reach on chat-completion responses. -/
def jsonParseJs : JVal → Except String JVal
  | .str s => jsonParse s
  | _ => .error "Unexpected token in JSON value"

/-- `result.choices` is falsy or has `length === 0` (the handlers' invalid-
response test; a `length` of `undefined` compares unequal to 0, as in JS). -/
def invalidChoices (result : JVal) : Bool :=
  let choices := result.getF "choices"
  !choices.truthy ||
    (match choices with
     | .arr .nil => true
     | .str "" => true
     | _ => false)

/-- `choices[0]` (array indexing; other receivers never reach this point in
the pipelines). -/
def firstOf : JVal → JVal
  | .arr (.cons v _) => v
  | _ => (.undef)

/-- Truthiness of an optional JS string parameter (`undefined` and `""` are
falsy). -/
def truthyStr : Option String → Bool
  | none => false
  | some s => s != ""

/-- The apostrophe character, for source strings that contain one. -/
def apos : Char := Char.ofNat 39

/-- The literal `base64_encoding` form value of the parsing request. -/
def tableB64Flag : String := String.mk ['[', apos, 't', 'a', 'b', 'l', 'e', apos, ']']

/-! ### Tool handler — `src/tools/documentParser.ts` (`parseDocument`) -/

namespace DocParser

def parseDocument (fs : FileSys) (api : Api) (home nowIso : String)
    (filePath : String) (outputFormats : Option (List String))
    (onProgress : Option Sink) : RunOut :=
  match validateDocumentFile fs filePath with
  | .error e => ⟨.error e, 0, []⟩
  | .ok _ =>
  match callSink onProgress 10 with
  | .error e => ⟨.error e, 0, []⟩
  | .ok _ =>
  let requestData := jobj ([("ocr", JVal.str "force"),
      ("base64_encoding", JVal.str tableB64Flag),
      ("model", JVal.str "document-parse")] ++
    (match outputFormats with
     | some fmts =>
        if fmts.length > 0 then
          [("output_formats", JVal.str (jsonStringify (jarr (fmts.map JVal.str))))]
        else []
     | none => []))
  match callSink onProgress 30 with
  | .error e => ⟨.error e, 0, []⟩
  | .ok _ =>
  let multipartBody := jobj [("files", jobj [("document", JVal.str filePath)]),
    ("data", requestData)]
  let req := makeRequest "Document parsing" (api API_ENDPOINTS.DOCUMENT_DIGITIZATION multipartBody)
  match req.outcome with
  | .error e => ⟨.error e, req.attempts, []⟩
  | .ok result =>
  match callSink onProgress 80 with
  | .error e => ⟨.error e, req.attempts, []⟩
  | .ok _ =>
  let outputPath := getOutputDirectory home "document_parsing" ++ "/"
    ++ generateTimestampedFilename nowIso filePath "upstage"
  let writes := [(outputPath, result)]
  match callSink onProgress 100 with
  | .error e => ⟨.error e, req.attempts, writes⟩
  | .ok _ =>
  let content := if (result.getF "content").truthy then result.getF "content" else jobj []
  ⟨.ok (jsonStringify content ++ "\n\nThe full response has been saved to " ++ outputPath
      ++ " for your reference."), req.attempts, writes⟩

end DocParser

/-! ### Tool handler — `src/tools/informationExtractor.ts`

`generateSchema` is the file-private helper the extractor calls when auto-
generation is enabled; `extractInformation` is the handler.  Both return
their network-attempt count and writes so the caller can account for
them. -/

namespace InfoExtractor

/-- The JSON request body shared by schema generation and extraction
(OpenAI chat format with one `image_url` part carrying the data URI). -/
def imageMessage (fs : FileSys) (filePath model : String) : List (String × JVal) :=
  [("model", JVal.str model),
   ("messages", jarr [jobj [("role", JVal.str "user"),
     ("content", jarr [jobj [("type", JVal.str "image_url"),
       ("image_url", jobj [("url", JVal.str ("data:" ++ getMimeType filePath
         ++ ";base64," ++ fs.base64 filePath))])]])]])]

def generateSchema (fs : FileSys) (api : Api) (home nowIso filePath : String)
    (onProgress : Option Sink) : Except String JVal × Nat × List (String × JVal) :=
  match callSink onProgress 20 with
  | .error e => (.error e, 0, [])
  | .ok _ =>
  let requestData := jobj (imageMessage fs filePath "information-extract")
  let req := makeRequest "Schema generation" (api API_ENDPOINTS.SCHEMA_GENERATION requestData)
  match req.outcome with
  | .error e => (.error e, req.attempts, [])
  | .ok result =>
  match callSink onProgress 40 with
  | .error e => (.error e, req.attempts, [])
  | .ok _ =>
  if invalidChoices result then
    (.error "Invalid response from schema generation API", req.attempts, [])
  else
    let content := ((firstOf (result.getF "choices")).getF "message").getF "content"
    match jsonParseJs content with
    | .error e => (.error e, req.attempts, [])
    | .ok schemaV =>
        if ¬ ((schemaV.getF "json_schema").truthy = true) then
          (.error "Invalid schema format returned", req.attempts, [])
        else
          let schemaPath := getOutputDirectory home "information_extraction/schemas" ++ "/"
            ++ generateTimestampedFilename nowIso filePath "schema"
          (.ok (schemaV.getF "json_schema"), req.attempts,
            [(schemaPath, schemaV.getF "json_schema")])

/-- The schema-source cascade of `extractInformation` (the `if`/`else if`
chain over `schemaJson`, `schemaPath` and `autoGenerateSchema`), factored
out so the precedence can be stated; the `schema` variable of the source
starts as `null` and the final branch leaves it so. -/
def resolveSchema (fs : FileSys) (api : Api) (home nowIso filePath : String)
    (schemaPath schemaJson : Option String) (autoGenerateSchema : Bool)
    (onProgress : Option Sink) : Except String JVal × Nat × List (String × JVal) :=
  if truthyStr schemaJson then
    match parseSchemaJson (schemaJson.getD "") with
    | .ok v =>
        (match callSink onProgress 20 with
         | .error e => (.error e, 0, [])
         | .ok _ => (.ok (v.getF "json_schema"), 0, []))
    | .error err => (.error ("Invalid schema format: " ++ err), 0, [])
  else if truthyStr schemaPath then
    match readJsonFile fs (schemaPath.getD "") with
    | .error e => (.error e, 0, [])
    | .ok v =>
        (match callSink onProgress 20 with
         | .error e => (.error e, 0, [])
         | .ok _ => (.ok v, 0, []))
  else if autoGenerateSchema then
    generateSchema fs api home nowIso filePath onProgress
  else (.ok .null, 0, [])

def extractInformation (fs : FileSys) (api : Api) (home nowIso filePath : String)
    (schemaPath schemaJson : Option String) (autoGenerateSchema : Bool)
    (onProgress : Option Sink) : RunOut :=
  match validateExtractionFile fs filePath with
  | .error e => ⟨.error e, 0, []⟩
  | .ok _ =>
  match callSink onProgress 10 with
  | .error e => ⟨.error e, 0, []⟩
  | .ok _ =>
  match resolveSchema fs api home nowIso filePath schemaPath schemaJson autoGenerateSchema
      onProgress with
  | (.error e, net1, w1) => ⟨.error e, net1, w1⟩
  | (.ok schemaV, net1, w1) =>
  if ¬ (schemaV.truthy = true) then
    ⟨.error "No schema provided or generated. Please provide a schema or enable auto_generate_schema.",
      net1, w1⟩
  else
  match callSink onProgress 60 with
  | .error e => ⟨.error e, net1, w1⟩
  | .ok _ =>
  let requestData := jobj (imageMessage fs filePath "information-extract" ++
    [("response_format", jobj [("type", JVal.str "json_schema"), ("json_schema", schemaV)])])
  let req := makeRequest "Information extraction"
    (api API_ENDPOINTS.INFORMATION_EXTRACTION requestData)
  match req.outcome with
  | .error e => ⟨.error e, net1 + req.attempts, w1⟩
  | .ok result =>
  if invalidChoices result then
    ⟨.error "Invalid response from information extraction API", net1 + req.attempts, w1⟩
  else
  let content := ((firstOf (result.getF "choices")).getF "message").getF "content"
  match jsonParseJs content with
  | .error e => ⟨.error e, net1 + req.attempts, w1⟩
  | .ok extractedData =>
  match callSink onProgress 90 with
  | .error e => ⟨.error e, net1 + req.attempts, w1⟩
  | .ok _ =>
  let outputPath := getOutputDirectory home "information_extraction" ++ "/"
    ++ generateTimestampedFilename nowIso filePath "extraction"
  let response := jobj [("extracted_data", extractedData),
    ("metadata", jobj [("file", JVal.str (basenameOf filePath)),
      ("result_saved_to", JVal.str outputPath),
      ("schema_used", JVal.str (if truthyStr schemaPath then schemaPath.getD ""
        else "auto-generated"))])]
  let w2 := w1 ++ [(outputPath, response)]
  match callSink onProgress 100 with
  | .error e => ⟨.error e, net1 + req.attempts, w2⟩
  | .ok _ =>
  ⟨.ok (jsonStringifyPretty response), net1 + req.attempts, w2⟩

end InfoExtractor

/-! ### Tool handler — `src/tools/schemaGenerator.ts` (`generateSchema`) -/

namespace SchemaGen

def generateSchema (fs : FileSys) (api : Api) (home nowIso filePath : String)
    (onProgress : Option Sink) : RunOut :=
  match validateExtractionFile fs filePath with
  | .error e => ⟨.error e, 0, []⟩
  | .ok _ =>
  match callSink onProgress 10 with
  | .error e => ⟨.error e, 0, []⟩
  | .ok _ =>
  match callSink onProgress 30 with
  | .error e => ⟨.error e, 0, []⟩
  | .ok _ =>
  let requestData := jobj (InfoExtractor.imageMessage fs filePath "information-extract")
  match callSink onProgress 50 with
  | .error e => ⟨.error e, 0, []⟩
  | .ok _ =>
  let req := makeRequest "Schema generation" (api API_ENDPOINTS.SCHEMA_GENERATION requestData)
  match req.outcome with
  | .error e => ⟨.error e, req.attempts, []⟩
  | .ok result =>
  match callSink onProgress 80 with
  | .error e => ⟨.error e, req.attempts, []⟩
  | .ok _ =>
  if invalidChoices result then
    ⟨.error "Invalid response from schema generation API", req.attempts, []⟩
  else
  let content := ((firstOf (result.getF "choices")).getF "message").getF "content"
  match jsonParseJs content with
  | .error e => ⟨.error e, req.attempts, []⟩
  | .ok schemaV =>
  if ¬ ((schemaV.getF "json_schema").truthy = true) then
    ⟨.error "Invalid schema format returned", req.attempts, []⟩
  else
  let schemaPath := getOutputDirectory home "information_extraction/schemas" ++ "/"
    ++ generateTimestampedFilename nowIso filePath "generated_schema"
  let schemaWithMetadata := jobj [("generated_schema", schemaV),
    ("metadata", jobj [("source_file", JVal.str (basenameOf filePath)),
      ("generated_at", JVal.str nowIso),
      ("schema_saved_to", JVal.str schemaPath)])]
  let writes := [(schemaPath, schemaWithMetadata)]
  match callSink onProgress 100 with
  | .error e => ⟨.error e, req.attempts, writes⟩
  | .ok _ =>
  let q := String.mk [apos]
  let response := jobj [("schema", schemaV),
    ("schema_json", JVal.str (jsonStringify schemaV)),
    ("metadata", jobj [("source_file", JVal.str (basenameOf filePath)),
      ("schema_saved_to", JVal.str schemaPath),
      ("usage_instructions", JVal.str ("Copy the " ++ q ++ "schema_json" ++ q
        ++ " value to use with extract_information tool when auto_generate_schema is false"))])]
  ⟨.ok (jsonStringifyPretty response), req.attempts, writes⟩

end SchemaGen

/-! ### Tool handler — `src/tools/documentClassifier.ts` (`classifyDocument`) -/

namespace DocClassifier

def DEFAULT_CLASSIFICATION_SCHEMA : JVal :=
  jobj [("type", .str "json_schema"),
    ("json_schema", jobj [("name", .str "document-classify"),
      ("schema", jobj [("type", .str "string"),
        ("oneOf", jarr [
          jobj [("const", JVal.str "invoice"),
            ("description", JVal.str "Commercial invoice with itemized charges and billing information")],
          jobj [("const", JVal.str "receipt"),
            ("description", JVal.str "Receipt showing purchase transaction details")],
          jobj [("const", JVal.str "contract"),
            ("description", JVal.str "Legal agreement or contract document")],
          jobj [("const", JVal.str "cv"),
            ("description", JVal.str "Curriculum vitae or resume")],
          jobj [("const", JVal.str "bank_statement"),
            ("description", JVal.str "Bank account statement showing transactions")],
          jobj [("const", JVal.str "tax_document"),
            ("description", JVal.str "Tax forms or tax-related documents")],
          jobj [("const", JVal.str "insurance"),
            ("description", JVal.str "Insurance policy or claims document")],
          jobj [("const", JVal.str "business_card"),
            ("description", JVal.str "Business card with contact information")],
          jobj [("const", JVal.str "letter"),
            ("description", JVal.str "Formal or business letter")],
          jobj [("const", JVal.str "form"),
            ("description", JVal.str "Application form or survey form")],
          jobj [("const", JVal.str "certificate"),
            ("description", JVal.str "Certificate or diploma")],
          jobj [("const", JVal.str "report"),
            ("description", JVal.str "Business report or analytical document")],
          jobj [("const", JVal.str "others"),
            ("description", JVal.str "Other document types not listed above")]])])])]

/-- The classifier's schema-source cascade (custom text wins over custom
file over the built-in default), factored out of `classifyDocument`. -/
def resolveResponseFormat (fs : FileSys) (schemaPath schemaJson : Option String) :
    Except String JVal :=
  if truthyStr schemaJson then
    match parseSchemaJson (schemaJson.getD "") with
    | .ok parsed =>
        .ok (jobj [("type", JVal.str "json_schema"),
          ("json_schema", parsed.getF "json_schema")])
    | .error err => .error ("Invalid classification schema format: " ++ err)
  else if truthyStr schemaPath then
    match readJsonFile fs (schemaPath.getD "") with
    | .error e => .error e
    | .ok loaded =>
        if loaded.getF "type" = .str "json_schema" ∧ (loaded.getF "json_schema").truthy = true then
          .ok loaded
        else
          .ok (jobj [("type", JVal.str "json_schema"), ("json_schema", loaded)])
  else
    .ok (jobj [("type", JVal.str "json_schema"),
      ("json_schema", DEFAULT_CLASSIFICATION_SCHEMA.getF "json_schema")])

def classifyDocument (fs : FileSys) (api : Api) (home nowIso filePath : String)
    (schemaPath schemaJson : Option String) (onProgress : Option Sink) : RunOut :=
  match validateExtractionFile fs filePath with
  | .error e => ⟨.error e, 0, []⟩
  | .ok _ =>
  match callSink onProgress 10 with
  | .error e => ⟨.error e, 0, []⟩
  | .ok _ =>
  match resolveResponseFormat fs schemaPath schemaJson with
  | .error e => ⟨.error e, 0, []⟩
  | .ok responseFormat =>
  match (if truthyStr schemaJson ∨ truthyStr schemaPath then callSink onProgress 20
      else .ok ()) with
  | .error e => ⟨.error e, 0, []⟩
  | .ok _ =>
  match callSink onProgress 40 with
  | .error e => ⟨.error e, 0, []⟩
  | .ok _ =>
  let requestData := jobj (InfoExtractor.imageMessage fs filePath "document-classify" ++
    [("response_format", responseFormat)])
  match callSink onProgress 60 with
  | .error e => ⟨.error e, 0, []⟩
  | .ok _ =>
  let req := makeRequest "Document classification"
    (api API_ENDPOINTS.DOCUMENT_CLASSIFICATION requestData)
  match req.outcome with
  | .error e => ⟨.error e, req.attempts, []⟩
  | .ok result =>
  if invalidChoices result then
    ⟨.error "Invalid response from document classification API", req.attempts, []⟩
  else
  let classificationResult := ((firstOf (result.getF "choices")).getF "message").getF "content"
  match callSink onProgress 90 with
  | .error e => ⟨.error e, req.attempts, []⟩
  | .ok _ =>
  let outputPath := getOutputDirectory home "document_classification" ++ "/"
    ++ generateTimestampedFilename nowIso filePath "classification"
  let schemaUsed := if truthyStr schemaPath then schemaPath.getD ""
    else if truthyStr schemaJson then "custom" else "default"
  let savedResponse := jobj [("classification", classificationResult),
    ("metadata", jobj [("file", JVal.str (basenameOf filePath)),
      ("result_saved_to", JVal.str outputPath),
      ("schema_used", JVal.str schemaUsed),
      ("api_response", result)])]
  let writes := [(outputPath, savedResponse)]
  match callSink onProgress 100 with
  | .error e => ⟨.error e, req.attempts, writes⟩
  | .ok _ =>
  let returned := jobj [("classification", classificationResult),
    ("metadata", jobj [("file", JVal.str (basenameOf filePath)),
      ("result_saved_to", JVal.str outputPath),
      ("schema_used", JVal.str schemaUsed)])]
  ⟨.ok (jsonStringifyPretty returned), req.attempts, writes⟩

end DocClassifier

/-! ### MCP dispatchers

`src/server.ts` (stdio transport): a static four-descriptor tool list and a
`tools/call` cascade routing each known tool name to its handler, the
unknown case throwing `Unknown tool`; every handler failure is caught and
rendered as `{content: [{type: text, text: Error: ...}], isError: true}`.
`src/httpServer.ts` (HTTP transport): `POST /mcp` with its own inline
two-descriptor `tools/list` answer and `-32601` for every other method.
Descriptors are modelled by their tool names (the prose descriptions and
input schemas are static strings with no behavior). -/

def stdioToolNames : List String :=
  ["parse_document", "extract_information", "generate_schema", "classify_document"]

inductive HandlerId where
  | parseDocumentH
  | extractInformationH
  | generateSchemaH
  | classifyDocumentH
deriving DecidableEq

/-- The stdio `CallToolRequestSchema` cascade: which handler a tool name
reaches (`none` is the `Unknown tool` throw). -/
def stdioRoute (name : String) : Option HandlerId :=
  if name = "parse_document" then some .parseDocumentH
  else if name = "extract_information" then some .extractInformationH
  else if name = "generate_schema" then some .generateSchemaH
  else if name = "classify_document" then some .classifyDocumentH
  else none

/-- The catch-all rendering of a handler outcome into the MCP tool result. -/
def stdioCallResult (handlerResult : Except String String) : JVal :=
  match handlerResult with
  | .ok text =>
      jobj [("content", jarr [jobj [("type", JVal.str "text"), ("text", JVal.str text)]])]
  | .error msg =>
      jobj [("content", jarr [jobj [("type", JVal.str "text"),
        ("text", JVal.str ("Error: " ++ msg))]]),
        ("isError", JVal.bool true)]

def httpToolNames : List String := ["parse_document", "extract_information"]

structure HttpOut where
  status : Nat
  body : JVal
deriving DecidableEq

def startsWithL : List Char → List Char → Bool
  | [], _ => true
  | _ :: _, [] => false
  | a :: as, b :: bs => a == b && startsWithL as bs

def containsSub (sub : List Char) : List Char → Bool
  | [] => startsWithL sub []
  | c :: t => startsWithL sub (c :: t) || containsSub sub t

/-- `String.prototype.includes`. -/
def strIncludes (hay sub : String) : Bool := containsSub sub.toList hay.toList

def acceptHeaderOk (accept : Option String) : Bool :=
  match accept with
  | none => false
  | some a => strIncludes a "application/json" || strIncludes a "text/event-stream"

def rpcInvalidRequest : JVal :=
  jobj [("jsonrpc", .str "2.0"),
    ("error", jobj [("code", .num (-32600)), ("message", .str "Invalid Request")]),
    ("id", .null)]

/-- The HTTP transport's inline `tools/list` answer (tool names; the two
descriptors cover only `parse_document` and `extract_information`). -/
def httpToolsList : JVal := jarr (httpToolNames.map JVal.str)

/-- `POST /mcp` after body decoding: Accept check, the
`!jsonRpcRequest || typeof jsonRpcRequest !== 'object'` test (code
`-32600`), the `tools/list` branch, and `-32601` for every other method —
including `tools/call`. -/
def httpPostMcp (accept : Option String) (body : Option JVal) : HttpOut :=
  if ¬ (acceptHeaderOk accept = true) then
    ⟨400, jobj [("error",
      .str "Invalid Accept header. Must include application/json or text/event-stream")]⟩
  else
    match body with
    | none => ⟨400, rpcInvalidRequest⟩
    | some b =>
        if ¬ (b.truthy = true ∧ b.typeOf = "object") then ⟨400, rpcInvalidRequest⟩
        else if b.getF "method" = .str "tools/list" then
          ⟨200, jobj [("jsonrpc", .str "2.0"),
            ("result", jobj [("tools", httpToolsList)]),
            ("id", b.getF "id")]⟩
        else
          ⟨200, jobj [("jsonrpc", .str "2.0"),
            ("error", jobj [("code", .num (-32601)), ("message", .str "Method not found")]),
            ("id", b.getF "id")]⟩

/-- The JSON-RPC error code of an HTTP dispatcher response, when present. -/
def rpcErrorCode (out : HttpOut) : JVal := (out.body.getF "error").getF "code"

/-! ## The claims

Each claim of the specification is settled by one theorem; a corrected
claim additionally has a counterexample theorem refuting the claim as
written, and its main theorem proves the amended statement.  Concrete
fixtures (a filesystem, chat-style endpoints) serve the witnesses and
counterexamples. -/

/-- An attempt outcome the client retries: a 429 or a non-4xx HTTP error, a
network error, or any other thrown error. -/
def isRetryableFailure : AttemptOutcome → Bool
  | .success _ => false
  | .httpError status _ => ! nonRetryableStatus status
  | .networkError _ => true
  | .thrownError _ => true

/-- The message the retry loop records for a failed attempt (Axios failures
wrapped with the operation name, other thrown errors kept unwrapped; a
success records nothing). -/
def failMsg (operation : String) : AttemptOutcome → String
  | .success _ => ""
  | .httpError _ m => operation ++ " failed: " ++ m
  | .networkError m => operation ++ " failed: " ++ m
  | .thrownError m => m

theorem retryGo_success (op : String) (ep : Nat → AttemptOutcome) (r n : Nat)
    (errs : List String) (payload : JVal) (h : ep n = .success payload) :
    retryGo op ep r n errs = ⟨.ok payload, n⟩ := by
  rw [retryGo, h]

theorem retryGo_fatal (op : String) (ep : Nat → AttemptOutcome) (r n : Nat)
    (errs : List String) (st : Nat) (m : String) (h : ep n = .httpError st m)
    (hs : nonRetryableStatus st = true) :
    retryGo op ep r n errs = ⟨.error (op ++ " failed: " ++ m), n⟩ := by
  rw [retryGo, h]; simp [hs]

theorem retryGo_step (op : String) (ep : Nat → AttemptOutcome) (r n : Nat)
    (errs : List String) (o : AttemptOutcome) (h : ep n = o)
    (hr : isRetryableFailure o = true) :
    retryGo op ep (r + 1) n errs = retryGo op ep r (n + 1) (errs ++ [failMsg op o]) := by
  cases o with
  | success p => simp [isRetryableFailure] at hr
  | httpError st m =>
      have hs : nonRetryableStatus st = false := by simpa [isRetryableFailure] using hr
      rw [retryGo, h]; simp [hs, failMsg]
  | networkError m => rw [retryGo, h]; simp [failMsg]
  | thrownError m => rw [retryGo, h]; simp [failMsg]

theorem retryGo_exhaust (op : String) (ep : Nat → AttemptOutcome) (n : Nat)
    (errs : List String) (o : AttemptOutcome) (h : ep n = o)
    (hr : isRetryableFailure o = true) :
    retryGo op ep 0 n errs =
      ⟨.error ((mainError (errs ++ [failMsg op o])).getD (failMsg op o)), n⟩ := by
  cases o with
  | success p => simp [isRetryableFailure] at hr
  | httpError st m =>
      have hs : nonRetryableStatus st = false := by simpa [isRetryableFailure] using hr
      rw [retryGo, h]; simp [hs, failMsg]
  | networkError m => rw [retryGo, h]; simp [failMsg]
  | thrownError m => rw [retryGo, h]; simp [failMsg]

/-- A chat-completion style response whose single choice carries `content`. -/
def chatResp (content : String) : JVal :=
  jobj [("choices", jarr [jobj [("message", jobj [("content", JVal.str content)])]])]

/-- A filesystem fixture: a valid PDF, a text file, two PDFs at the size
boundary, and a stored custom schema file. -/
def fsMain : FileSys where
  stat := fun p =>
    if p = "/docs/invoice.pdf" then some ⟨true, 2048⟩
    else if p = "/docs/notes.txt" then some ⟨true, 10⟩
    else if p = "/docs/huge.pdf" then some ⟨true, 52428801⟩
    else if p = "/docs/exact.pdf" then some ⟨true, 52428800⟩
    else none
  jsonContent := fun p =>
    if p = "/schemas/custom.json" then
      some (jobj [("type", JVal.str "json_schema"),
        ("json_schema", jobj [("name", JVal.str "custom"),
          ("schema", jobj [("type", JVal.str "object"), ("properties", jobj [])])])])
    else none
  base64 := fun _ => "QUJD"

/-- An endpoint fixture always succeeding with JSON text as the content. -/
def apiOkJson : Api := fun _ _ _ => .success (chatResp "\x7b\"total\":42\x7d")

/-- A fixed ISO timestamp for the runs. -/
def isoT : String := "2024-01-02T03:04:05.678Z"

/-- C10: the file-size check is strict at the 50 MiB boundary — a file of
exactly 52428800 bytes passes validation, and the too-large error occurs
exactly when the size strictly exceeds the ceiling. -/
theorem C10_size_boundary_strict (fs : FileSys) (filePath : String) (st : FStat)
    (h : fs.stat filePath = some st) :
    (st.size = 52428800 → validateFileSize fs filePath FILE_LIMITS.MAX_SIZE = .ok ()) ∧
    ((∃ e, validateFileSize fs filePath FILE_LIMITS.MAX_SIZE = .error e) ↔
      52428800 < st.size) := by
  have hmax : FILE_LIMITS.MAX_SIZE = 52428800 := by norm_num [FILE_LIMITS.MAX_SIZE]
  simp only [validateFileSize, h, hmax]
  refine ⟨fun hs => ?_, ⟨fun he => ?_, fun hgt => ?_⟩⟩
  · rw [if_neg (by omega)]
  · obtain ⟨e, he⟩ := he
    by_cases hgt : 52428800 < st.size
    · exact hgt
    · rw [if_neg (by omega)] at he
      exact absurd he (by simp)
  · rw [if_pos (by omega)]
    exact ⟨_, rfl⟩

/-- C10 witness: the boundary at work on files of 52428800 and 52428801
bytes. -/
theorem C10_size_boundary_strict_witness :
    validateFileSize fsMain "/docs/exact.pdf" FILE_LIMITS.MAX_SIZE = .ok () ∧
    ∃ e, validateFileSize fsMain "/docs/huge.pdf" FILE_LIMITS.MAX_SIZE = .error e :=
  ⟨(C10_size_boundary_strict fsMain "/docs/exact.pdf" ⟨true, 52428800⟩ (by decide)).1 rfl,
   ((C10_size_boundary_strict fsMain "/docs/huge.pdf" ⟨true, 52428801⟩ (by decide)).2).mpr
     (by decide)⟩

theorem validateDocumentFile_unsupported (fs : FileSys) (filePath : String) (st : FStat)
    (hstat : fs.stat filePath = some st) (hfile : st.isFile = true)
    (hext : ALLOWED_EXTENSIONS.DOCUMENT_PARSING.contains (lowerStr (extname filePath)) = false) :
    validateDocumentFile fs filePath =
      .error ("Unsupported file format: " ++ lowerStr (extname filePath)
        ++ ". Supported formats: " ++ joinCommaSp ALLOWED_EXTENSIONS.DOCUMENT_PARSING) := by
  have hmem : lowerStr (extname filePath) ∉ ALLOWED_EXTENSIONS.DOCUMENT_PARSING := by
    simpa using hext
  simp [validateDocumentFile, validateFileExists, validateFileExtension, hstat, hfile, hmem]

theorem validateExtractionFile_unsupported (fs : FileSys) (filePath : String) (st : FStat)
    (hstat : fs.stat filePath = some st) (hfile : st.isFile = true)
    (hext : ALLOWED_EXTENSIONS.INFO_EXTRACTION.contains (lowerStr (extname filePath)) = false) :
    validateExtractionFile fs filePath =
      .error ("Unsupported file format: " ++ lowerStr (extname filePath)
        ++ ". Supported formats: " ++ joinCommaSp ALLOWED_EXTENSIONS.INFO_EXTRACTION) := by
  have hmem : lowerStr (extname filePath) ∉ ALLOWED_EXTENSIONS.INFO_EXTRACTION := by
    simpa using hext
  simp [validateExtractionFile, validateFileExists, validateFileExtension, hstat, hfile, hmem]

/-- C7: a validator failure — an unsupported (lower-cased) extension in
particular — aborts each of the four handlers with zero outbound network
attempts and zero writes. -/
theorem C7_validation_before_network :
    (∀ fs api home nowIso filePath fmts sink st,
      fs.stat filePath = some st → st.isFile = true →
      ALLOWED_EXTENSIONS.DOCUMENT_PARSING.contains (lowerStr (extname filePath)) = false →
      DocParser.parseDocument fs api home nowIso filePath fmts sink =
        ⟨.error ("Unsupported file format: " ++ lowerStr (extname filePath)
          ++ ". Supported formats: " ++ joinCommaSp ALLOWED_EXTENSIONS.DOCUMENT_PARSING),
          0, []⟩) ∧
    (∀ fs api home nowIso filePath sp sj ag sink st,
      fs.stat filePath = some st → st.isFile = true →
      ALLOWED_EXTENSIONS.INFO_EXTRACTION.contains (lowerStr (extname filePath)) = false →
      InfoExtractor.extractInformation fs api home nowIso filePath sp sj ag sink =
        ⟨.error ("Unsupported file format: " ++ lowerStr (extname filePath)
          ++ ". Supported formats: " ++ joinCommaSp ALLOWED_EXTENSIONS.INFO_EXTRACTION),
          0, []⟩) ∧
    (∀ fs api home nowIso filePath sink st,
      fs.stat filePath = some st → st.isFile = true →
      ALLOWED_EXTENSIONS.INFO_EXTRACTION.contains (lowerStr (extname filePath)) = false →
      SchemaGen.generateSchema fs api home nowIso filePath sink =
        ⟨.error ("Unsupported file format: " ++ lowerStr (extname filePath)
          ++ ". Supported formats: " ++ joinCommaSp ALLOWED_EXTENSIONS.INFO_EXTRACTION),
          0, []⟩) ∧
    (∀ fs api home nowIso filePath sp sj sink st,
      fs.stat filePath = some st → st.isFile = true →
      ALLOWED_EXTENSIONS.INFO_EXTRACTION.contains (lowerStr (extname filePath)) = false →
      DocClassifier.classifyDocument fs api home nowIso filePath sp sj sink =
        ⟨.error ("Unsupported file format: " ++ lowerStr (extname filePath)
          ++ ". Supported formats: " ++ joinCommaSp ALLOWED_EXTENSIONS.INFO_EXTRACTION),
          0, []⟩) ∧
    (∀ fs api home nowIso filePath fmts sink e,
      validateDocumentFile fs filePath = .error e →
      DocParser.parseDocument fs api home nowIso filePath fmts sink = ⟨.error e, 0, []⟩) ∧
    (∀ fs api home nowIso filePath sp sj ag sink e,
      validateExtractionFile fs filePath = .error e →
      InfoExtractor.extractInformation fs api home nowIso filePath sp sj ag sink =
        ⟨.error e, 0, []⟩) ∧
    (∀ fs api home nowIso filePath sink e,
      validateExtractionFile fs filePath = .error e →
      SchemaGen.generateSchema fs api home nowIso filePath sink = ⟨.error e, 0, []⟩) ∧
    (∀ fs api home nowIso filePath sp sj sink e,
      validateExtractionFile fs filePath = .error e →
      DocClassifier.classifyDocument fs api home nowIso filePath sp sj sink =
        ⟨.error e, 0, []⟩) := by
  refine ⟨?_, ?_, ?_, ?_, ?_, ?_, ?_, ?_⟩
  · intro fs api home nowIso filePath fmts sink st h1 h2 h3
    simp [DocParser.parseDocument, validateDocumentFile_unsupported fs filePath st h1 h2 h3]
  · intro fs api home nowIso filePath sp sj ag sink st h1 h2 h3
    simp [InfoExtractor.extractInformation,
      validateExtractionFile_unsupported fs filePath st h1 h2 h3]
  · intro fs api home nowIso filePath sink st h1 h2 h3
    simp [SchemaGen.generateSchema,
      validateExtractionFile_unsupported fs filePath st h1 h2 h3]
  · intro fs api home nowIso filePath sp sj sink st h1 h2 h3
    simp [DocClassifier.classifyDocument,
      validateExtractionFile_unsupported fs filePath st h1 h2 h3]
  · intro fs api home nowIso filePath fmts sink e hv
    simp [DocParser.parseDocument, hv]
  · intro fs api home nowIso filePath sp sj ag sink e hv
    simp [InfoExtractor.extractInformation, hv]
  · intro fs api home nowIso filePath sink e hv
    simp [SchemaGen.generateSchema, hv]
  · intro fs api home nowIso filePath sp sj sink e hv
    simp [DocClassifier.classifyDocument, hv]

/-- C7 witness: a `.txt` file is rejected by the parsing tool with zero
network attempts and zero writes. -/
theorem C7_validation_before_network_witness :
    DocParser.parseDocument fsMain apiOkJson "/home/u" isoT "/docs/notes.txt" none none =
      ⟨.error ("Unsupported file format: " ++ lowerStr (extname "/docs/notes.txt")
        ++ ". Supported formats: " ++ joinCommaSp ALLOWED_EXTENSIONS.DOCUMENT_PARSING),
        0, []⟩ :=
  C7_validation_before_network.1 fsMain apiOkJson "/home/u" isoT "/docs/notes.txt" none none
    ⟨true, 10⟩ (by decide) rfl (by decide)

/-- C2 (amended): a first-attempt 4xx other than 429 fails immediately after
exactly one attempt; three retryable failures exhaust exactly 3 attempts and
surface `mainError` of the recorded messages — the most frequent, ties
resolved toward the later — which is the last error only when a single
message dominates (in particular when all three coincide); a retryable
failure followed by a success within 3 attempts returns the payload. -/
theorem C2_retry_policy :
    (∀ op ep st m, nonRetryableStatus st = true → ep 1 = .httpError st m →
      makeRequest op ep = ⟨.error (op ++ " failed: " ++ m), 1⟩) ∧
    (∀ op ep, (isRetryableFailure (ep 1) = true ∧ isRetryableFailure (ep 2) = true ∧
        isRetryableFailure (ep 3) = true) →
      makeRequest op ep =
        ⟨.error ((mainError [failMsg op (ep 1), failMsg op (ep 2), failMsg op (ep 3)]).getD
          (failMsg op (ep 3))), 3⟩) ∧
    (∀ op ep payload, isRetryableFailure (ep 1) = true → ep 2 = .success payload →
      makeRequest op ep = ⟨.ok payload, 2⟩) ∧
    (∀ op ep payload, isRetryableFailure (ep 1) = true → isRetryableFailure (ep 2) = true →
      ep 3 = .success payload → makeRequest op ep = ⟨.ok payload, 3⟩) ∧
    (∀ op ep m, ep 1 = .networkError m → ep 2 = .networkError m → ep 3 = .networkError m →
      makeRequest op ep = ⟨.error (op ++ " failed: " ++ m), 3⟩) := by
  have hstart : API_CONFIG.RETRY_ATTEMPTS - 1 = 1 + 1 := by norm_num [API_CONFIG.RETRY_ATTEMPTS]
  refine ⟨?_, ?_, ?_, ?_, ?_⟩
  · intro op ep st m hs h1
    rw [makeRequest, retryGo_fatal op ep _ 1 [] st m h1 hs]
  · intro op ep h
    obtain ⟨h1, h2, h3⟩ := h
    rw [makeRequest, hstart, retryGo_step op ep 1 1 [] (ep 1) rfl h1,
      retryGo_step op ep 0 2 _ (ep 2) rfl h2,
      retryGo_exhaust op ep 3 _ (ep 3) rfl h3]
    simp
  · intro op ep payload h1 h2
    rw [makeRequest, hstart, retryGo_step op ep 1 1 [] (ep 1) rfl h1,
      retryGo_success op ep 1 2 _ payload h2]
  · intro op ep payload h1 h2 h3
    rw [makeRequest, hstart, retryGo_step op ep 1 1 [] (ep 1) rfl h1,
      retryGo_step op ep 0 2 _ (ep 2) rfl h2,
      retryGo_success op ep 0 3 _ payload h3]
  · intro op ep m h1 h2 h3
    rw [makeRequest, hstart, retryGo_step op ep 1 1 [] (ep 1) rfl (by simp [h1, isRetryableFailure]),
      retryGo_step op ep 0 2 _ (ep 2) rfl (by simp [h2, isRetryableFailure]),
      retryGo_exhaust op ep 3 _ (ep 3) rfl (by simp [h3, isRetryableFailure])]
    rw [h1, h2, h3]
    simp [failMsg, mainError, mainErrorGo, bumpCount, countOf]

/-- An endpoint failing with two 500s carrying one message and a final 429
carrying another. -/
def epTwoThenOther : Nat → AttemptOutcome := fun k =>
  if k = 3 then .httpError 429 "B" else .httpError 500 "A"

/-- C2 counterexample: all three attempts fail with retryable errors, yet the
surfaced error is the most frequent message ("A", from attempts 1 and 2) and
not the last one ("B", from attempt 3). -/
theorem C2_counterexample :
    isRetryableFailure (epTwoThenOther 1) = true ∧
    isRetryableFailure (epTwoThenOther 2) = true ∧
    isRetryableFailure (epTwoThenOther 3) = true ∧
    makeRequest "API request" epTwoThenOther = ⟨.error "API request failed: A", 3⟩ ∧
    failMsg "API request" (epTwoThenOther 3) = "API request failed: B" ∧
    "API request failed: A" ≠ "API request failed: B" := by
  refine ⟨by decide, by decide, by decide, by decide, by decide, by decide⟩

/-- A 404 endpoint, an endpoint succeeding on the third attempt, and an
endpoint failing thrice with one network error. -/
def ep404 : Nat → AttemptOutcome := fun _ => .httpError 404 "not found"

def epThirdTime : Nat → AttemptOutcome := fun k =>
  if k = 3 then .success (JVal.str "parsed") else .httpError 500 "server error"

def epAllNet : Nat → AttemptOutcome := fun _ => .networkError "socket hang up"

/-- C2 witness: the three scenarios of the spec, concretely — a 404 fails
after 1 attempt, two 500s then a success return the payload at attempt 3,
and three identical network errors surface that error after 3 attempts. -/
theorem C2_retry_policy_witness :
    makeRequest "Document parsing" ep404 =
      ⟨.error "Document parsing failed: not found", 1⟩ ∧
    makeRequest "Document parsing" epThirdTime = ⟨.ok (JVal.str "parsed"), 3⟩ ∧
    makeRequest "Document parsing" epAllNet =
      ⟨.error "Document parsing failed: socket hang up", 3⟩ :=
  ⟨C2_retry_policy.1 "Document parsing" ep404 404 "not found" (by decide) rfl,
   C2_retry_policy.2.2.2.1 "Document parsing" epThirdTime (JVal.str "parsed")
     (by decide) (by decide) rfl,
   C2_retry_policy.2.2.2.2 "Document parsing" epAllNet "socket hang up" rfl rfl rfl⟩

/-- C8: serializing the schema built from any undefined-free fields mapping
and parsing the result yields the original schema, structurally equal
(`createExtractionSchema` with the name argument omitted, as the claim
invokes it). -/
theorem C8_schema_roundtrip (fields : JMembers) (hf : noUndefM fields = true) :
    parseSchemaJson (schemaToJson (createExtractionSchema fields none)) =
      .ok (createExtractionSchema fields none) := by
  have hnu : noUndefV (createExtractionSchema fields none) = true := by
    simp [createExtractionSchema, jobj, JMembers.ofList, noUndefV, noUndefM, hf]
  have hval : validateSchemaFormat (createExtractionSchema fields none) = .ok () := rfl
  rw [parseSchemaJson, schemaToJson, jsonParse_stringify _ hnu]
  simp [hval]

/-- A concrete invoice-style fields mapping. -/
def fieldsInvoice : JMembers := JMembers.ofList
  [("company_name", jobj [("type", JVal.str "string"),
      ("description", JVal.str "Name of the company")]),
   ("total_amount", jobj [("type", JVal.str "number"),
      ("description", JVal.str "Total amount of the invoice")])]

/-- C8 witness: the round trip on a concrete fields mapping. -/
theorem C8_schema_roundtrip_witness :
    parseSchemaJson (schemaToJson (createExtractionSchema fieldsInvoice none)) =
      .ok (createExtractionSchema fieldsInvoice none) :=
  C8_schema_roundtrip fieldsInvoice (by decide)

/-- A non-null object or array, the receivers JavaScript property access
works on. -/
def isObjOrArr : JVal → Bool
  | .obj _ => true
  | .arr _ => true
  | _ => false

/-- The schema shape the claim describes, read literally from its words:
a top-level discriminator, a `json_schema` object carrying a string name
(any string) and a `schema` object with type "object" and a NON-EMPTY
properties mapping. -/
def claimedSchemaShape (v : JVal) : Bool :=
  decide (v.getF "type" = JVal.str "json_schema") &&
  isObjOrArr (v.getF "json_schema") &&
  decide (((v.getF "json_schema").getF "name").typeOf = "string") &&
  decide (((v.getF "json_schema").getF "schema").getF "type" = JVal.str "object") &&
  (match ((v.getF "json_schema").getF "schema").getF "properties" with
   | .obj (.cons _ _ _) => true
   | _ => false)

/-- The shape `validateSchemaFormat` actually accepts: as the claim says,
except that the name must be a NON-EMPTY string (an empty name is falsy and
rejected) and `properties` may be EMPTY (any object-typed value passes the
truthiness-plus-typeof test). -/
def acceptedSchemaShape (v : JVal) : Bool :=
  isObjOrArr v &&
  decide (v.getF "type" = JVal.str "json_schema") &&
  isObjOrArr (v.getF "json_schema") &&
  (match (v.getF "json_schema").getF "name" with
   | .str s => decide (s ≠ "")
   | _ => false) &&
  isObjOrArr ((v.getF "json_schema").getF "schema") &&
  decide (((v.getF "json_schema").getF "schema").getF "type" = JVal.str "object") &&
  isObjOrArr (((v.getF "json_schema").getF "schema").getF "properties")

theorem objectLike_eq_isObjOrArr (v : JVal) : objectLike v = isObjOrArr v := by
  cases v <;> simp [objectLike, isObjOrArr, JVal.truthy, JVal.typeOf]

theorem nameCheck_iff (w : JVal) :
    (match w with
      | JVal.str s => decide (s ≠ "")
      | _ => false) = true ↔ (w.truthy = true ∧ w.typeOf = "string") := by
  cases w <;> simp [JVal.truthy, JVal.typeOf]

/-- C4 (amended): `validateSchemaFormat` accepts exactly the object-like
candidates with discriminator `"json_schema"`, an object-like `json_schema`
with a non-empty string name, an object-like `schema` whose `type` is
`"object"` and an object-like — possibly empty — `properties`; and the seven
rejection branches carry seven pairwise-distinct messages, exhibited on
seven malformed candidates. -/
theorem C4_schema_validator_exact :
    (∀ v : JVal, validateSchemaFormat v = .ok () ↔ acceptedSchemaShape v = true) ∧
    (validateSchemaFormat (JVal.str "x") = .error "Schema must be an object" ∧
     validateSchemaFormat (jobj []) = .error "Schema must have type \"json_schema\"" ∧
     validateSchemaFormat (jobj [("type", JVal.str "json_schema")]) =
       .error "Schema must have \"json_schema\" property" ∧
     validateSchemaFormat (jobj [("type", JVal.str "json_schema"),
       ("json_schema", jobj [])]) = .error "Schema must have a \"name\" property" ∧
     validateSchemaFormat (jobj [("type", JVal.str "json_schema"),
       ("json_schema", jobj [("name", JVal.str "n")])]) =
       .error "Schema must have a \"schema\" property" ∧
     validateSchemaFormat (jobj [("type", JVal.str "json_schema"),
       ("json_schema", jobj [("name", JVal.str "n"),
         ("schema", jobj [("type", JVal.str "array")])])]) =
       .error "Schema type must be \"object\"" ∧
     validateSchemaFormat (jobj [("type", JVal.str "json_schema"),
       ("json_schema", jobj [("name", JVal.str "n"),
         ("schema", jobj [("type", JVal.str "object")])])]) =
       .error "Schema must have \"properties\" object" ∧
     List.Nodup ["Schema must be an object", "Schema must have type \"json_schema\"",
       "Schema must have \"json_schema\" property", "Schema must have a \"name\" property",
       "Schema must have a \"schema\" property", "Schema type must be \"object\"",
       "Schema must have \"properties\" object"]) := by
  constructor
  · intro v
    constructor
    · intro h
      have h1 : objectLike v = true := by
        by_contra hc
        simp [validateSchemaFormat, hc] at h
      have h2 : v.getF "type" = JVal.str "json_schema" := by
        by_contra hc
        simp [validateSchemaFormat, h1, hc] at h
      have h3 : objectLike (v.getF "json_schema") = true := by
        by_contra hc
        simp [validateSchemaFormat, h1, h2, hc] at h
      have h4 : ((v.getF "json_schema").getF "name").truthy = true ∧
          ((v.getF "json_schema").getF "name").typeOf = "string" := by
        by_contra hc
        simp [validateSchemaFormat, h1, h2, h3, hc] at h
      have h5 : objectLike ((v.getF "json_schema").getF "schema") = true := by
        by_contra hc
        simp [validateSchemaFormat, h1, h2, h3, h4.1, h4.2, hc] at h
      have h6 : ((v.getF "json_schema").getF "schema").getF "type" = JVal.str "object" := by
        by_contra hc
        simp [validateSchemaFormat, h1, h2, h3, h4.1, h4.2, h5, hc] at h
      have h7 : objectLike (((v.getF "json_schema").getF "schema").getF "properties") = true := by
        by_contra hc
        simp [validateSchemaFormat, h1, h2, h3, h4.1, h4.2, h5, h6, hc] at h
      simp only [acceptedSchemaShape, Bool.and_eq_true, decide_eq_true_eq]
      exact ⟨⟨⟨⟨⟨⟨(objectLike_eq_isObjOrArr v) ▸ h1, h2⟩,
        (objectLike_eq_isObjOrArr _) ▸ h3⟩, (nameCheck_iff _).mpr h4⟩,
        (objectLike_eq_isObjOrArr _) ▸ h5⟩, h6⟩, (objectLike_eq_isObjOrArr _) ▸ h7⟩
    · intro h
      simp only [acceptedSchemaShape, Bool.and_eq_true, decide_eq_true_eq] at h
      obtain ⟨⟨⟨⟨⟨⟨ha, hb⟩, hc⟩, hd⟩, he⟩, hf⟩, hg⟩ := h
      have ha2 : objectLike v = true := by
        rw [objectLike_eq_isObjOrArr]; exact ha
      have hc2 : objectLike (v.getF "json_schema") = true := by
        rw [objectLike_eq_isObjOrArr]; exact hc
      have he2 : objectLike ((v.getF "json_schema").getF "schema") = true := by
        rw [objectLike_eq_isObjOrArr]; exact he
      have hg2 : objectLike (((v.getF "json_schema").getF "schema").getF "properties") = true := by
        rw [objectLike_eq_isObjOrArr]; exact hg
      have hd2 := (nameCheck_iff _).mp hd
      simp [validateSchemaFormat, ha2, hb, hc2, hd2.1, hd2.2, he2, hf, hg2]
  · refine ⟨by decide, by decide, by decide, by decide, by decide, by decide, by decide,
      by decide⟩

/-- A schema whose `properties` object is empty, and one whose name is the
empty string. -/
def emptyPropsSchema : JVal := createExtractionSchema .nil none

def emptyNameSchema : JVal := createExtractionSchema fieldsInvoice (some "")

/-- C4 counterexample: the validator accepts a schema with an EMPTY
`properties` object, which the claim's shape (non-empty properties mapping)
excludes; and it rejects a schema whose name is the empty string, which the
claim's shape (any string name) admits. -/
theorem C4_counterexample :
    validateSchemaFormat emptyPropsSchema = .ok () ∧
    claimedSchemaShape emptyPropsSchema = false ∧
    validateSchemaFormat emptyNameSchema = .error "Schema must have a \"name\" property" ∧
    claimedSchemaShape emptyNameSchema = true := by
  refine ⟨by decide, by decide, by decide, by decide⟩

/-- C3 (amended): schema resolution follows `schema_json` over `schema_path`
over auto-generation over failure, under JavaScript truthiness — an empty
`schema_json` or `schema_path` string is falsy and silently skipped, not
used.  A truthy `schema_json` decides the outcome regardless of
`schema_path` and the auto flag with no network traffic; a truthy
`schema_path` (with falsy `schema_json`) loads the file with no network
traffic; with both falsy the auto branch delegates to the remote schema
generator; with both falsy and the flag off the call fails with the
no-schema error, zero network attempts, zero writes. -/
theorem C3_schema_precedence :
    (∀ fs api home nowIso filePath sp sp2 sj ag ag2 sink, truthyStr sj = true →
      InfoExtractor.resolveSchema fs api home nowIso filePath sp sj ag sink =
        InfoExtractor.resolveSchema fs api home nowIso filePath sp2 sj ag2 sink) ∧
    (∀ fs api home nowIso filePath sp sj ag sink, truthyStr sj = true →
      (InfoExtractor.resolveSchema fs api home nowIso filePath sp sj ag sink).2.1 = 0) ∧
    (∀ fs api home nowIso filePath sp sj ag sink v,
      truthyStr sj = false → truthyStr sp = true →
      readJsonFile fs (sp.getD "") = .ok v →
      InfoExtractor.resolveSchema fs api home nowIso filePath sp sj ag sink =
        (match callSink sink 20 with
         | .error e => (.error e, 0, [])
         | .ok _ => (.ok v, 0, []))) ∧
    (∀ fs api home nowIso filePath sp sj ag sink,
      truthyStr sj = false → truthyStr sp = true →
      (InfoExtractor.resolveSchema fs api home nowIso filePath sp sj ag sink).2.1 = 0) ∧
    (∀ fs api home nowIso filePath sp sj sink,
      truthyStr sj = false → truthyStr sp = false →
      InfoExtractor.resolveSchema fs api home nowIso filePath sp sj true sink =
        InfoExtractor.generateSchema fs api home nowIso filePath sink) ∧
    (∀ fs api home nowIso filePath sp sj sink,
      truthyStr sj = false → truthyStr sp = false →
      validateExtractionFile fs filePath = .ok () →
      callSink sink 10 = .ok () →
      InfoExtractor.extractInformation fs api home nowIso filePath sp sj false sink =
        ⟨.error "No schema provided or generated. Please provide a schema or enable auto_generate_schema.",
          0, []⟩) := by
  refine ⟨?_, ?_, ?_, ?_, ?_, ?_⟩
  · intro fs api home nowIso filePath sp sp2 sj ag ag2 sink h
    simp [InfoExtractor.resolveSchema, h]
  · intro fs api home nowIso filePath sp sj ag sink h
    cases hp : parseSchemaJson (sj.getD "") with
    | error m => simp [InfoExtractor.resolveSchema, h, hp]
    | ok v =>
        cases hs : callSink sink 20 with
        | error e => simp [InfoExtractor.resolveSchema, h, hp, hs]
        | ok u => simp [InfoExtractor.resolveSchema, h, hp, hs]
  · intro fs api home nowIso filePath sp sj ag sink v hsj hsp hv
    simp [InfoExtractor.resolveSchema, hsj, hsp, hv]
  · intro fs api home nowIso filePath sp sj ag sink hsj hsp
    cases hr : readJsonFile fs (sp.getD "") with
    | error m => simp [InfoExtractor.resolveSchema, hsj, hsp, hr]
    | ok v =>
        cases hs : callSink sink 20 with
        | error e => simp [InfoExtractor.resolveSchema, hsj, hsp, hr, hs]
        | ok u => simp [InfoExtractor.resolveSchema, hsj, hsp, hr, hs]
  · intro fs api home nowIso filePath sp sj sink hsj hsp
    simp [InfoExtractor.resolveSchema, hsj, hsp]
  · intro fs api home nowIso filePath sp sj sink hsj hsp hval hsink
    simp [InfoExtractor.extractInformation, InfoExtractor.resolveSchema, hval, hsink,
      hsj, hsp, JVal.truthy]

/-- C3 counterexample: with `schema_json` supplied as the empty string and a
valid `schema_path` alongside, the claim says the supplied `schema_json` is
used — which would fail, as the empty string is not valid JSON; the run
instead silently skips it and succeeds from the schema file. -/
theorem C3_counterexample :
    truthyStr (some "") = false ∧
    (parseSchemaJson "").isOk = false ∧
    (InfoExtractor.extractInformation fsMain apiOkJson "/home/u" isoT "/docs/invoice.pdf"
      (some "/schemas/custom.json") (some "") false none).result.isOk = true ∧
    (InfoExtractor.extractInformation fsMain apiOkJson "/home/u" isoT "/docs/invoice.pdf"
      (some "/schemas/custom.json") (some "") false none).netAttempts = 1 := by
  refine ⟨by decide, by decide, by decide, by decide⟩

/-- C3 witness: with neither source supplied and auto-generation off, the
extraction fails with the no-schema error, zero attempts, zero writes. -/
theorem C3_schema_precedence_witness :
    InfoExtractor.extractInformation fsMain apiOkJson "/home/u" isoT "/docs/invoice.pdf"
      none none false none =
      ⟨.error "No schema provided or generated. Please provide a schema or enable auto_generate_schema.",
        0, []⟩ :=
  C3_schema_precedence.2.2.2.2.2 fsMain apiOkJson "/home/u" isoT "/docs/invoice.pdf"
    none none none rfl rfl (by decide) rfl

/-- C5 (amended): a sink that always resolves leaves the handler run
identical to the sink-absent run, for `parseDocument` and
`extractInformation`; but the sink is NOT fire-and-forget — each call is
awaited with no try/catch, so a failing sink aborts the handler and its
failure becomes the handler result. -/
theorem C5_sink_effect :
    (∀ fs api home nowIso filePath fmts (sink : Sink), (∀ p, sink p = .ok ()) →
      DocParser.parseDocument fs api home nowIso filePath fmts (some sink) =
        DocParser.parseDocument fs api home nowIso filePath fmts none) ∧
    (∀ fs api home nowIso filePath sp sj ag (sink : Sink), (∀ p, sink p = .ok ()) →
      InfoExtractor.extractInformation fs api home nowIso filePath sp sj ag (some sink) =
        InfoExtractor.extractInformation fs api home nowIso filePath sp sj ag none) ∧
    (∀ fs api home nowIso filePath fmts (sink : Sink) e,
      validateDocumentFile fs filePath = .ok () → sink 10 = .error e →
      (DocParser.parseDocument fs api home nowIso filePath fmts (some sink)).result =
        .error e) ∧
    (∀ fs api home nowIso filePath sp sj ag (sink : Sink) e,
      validateExtractionFile fs filePath = .ok () → sink 10 = .error e →
      (InfoExtractor.extractInformation fs api home nowIso filePath sp sj ag
        (some sink)).result = .error e) := by
  refine ⟨?_, ?_, ?_, ?_⟩
  · intro fs api home nowIso filePath fmts sink hsink
    simp [DocParser.parseDocument, callSink, hsink]
  · intro fs api home nowIso filePath sp sj ag sink hsink
    simp [InfoExtractor.extractInformation, InfoExtractor.resolveSchema,
      InfoExtractor.generateSchema, callSink, hsink]
  · intro fs api home nowIso filePath fmts sink e hval hs
    simp [DocParser.parseDocument, callSink, hval, hs]
  · intro fs api home nowIso filePath sp sj ag sink e hval hs
    simp [InfoExtractor.extractInformation, callSink, hval, hs]

/-- A sink failing on every report. -/
def sinkBoom : Sink := fun _ => .error "sink failed"

/-- C5 counterexample: one concrete parse run with a failing sink returns the
sink failure, while the same run with the sink absent succeeds — the sink
failure altered the handler result. -/
theorem C5_counterexample :
    (DocParser.parseDocument fsMain apiOkJson "/home/u" isoT "/docs/invoice.pdf"
      none (some sinkBoom)).result = .error "sink failed" ∧
    (DocParser.parseDocument fsMain apiOkJson "/home/u" isoT "/docs/invoice.pdf"
      none none).result.isOk = true ∧
    DocParser.parseDocument fsMain apiOkJson "/home/u" isoT "/docs/invoice.pdf"
        none (some sinkBoom) ≠
      DocParser.parseDocument fsMain apiOkJson "/home/u" isoT "/docs/invoice.pdf"
        none none := by
  refine ⟨by decide, by decide, by decide⟩

/-- A sink recording nothing and always resolving. -/
def sinkOk : Sink := fun _ => .ok ()

/-- C5 witness: with an always-resolving sink the parse run equals the
sink-absent run. -/
theorem C5_sink_effect_witness :
    DocParser.parseDocument fsMain apiOkJson "/home/u" isoT "/docs/invoice.pdf"
      none (some sinkOk) =
      DocParser.parseDocument fsMain apiOkJson "/home/u" isoT "/docs/invoice.pdf" none none :=
  C5_sink_effect.1 fsMain apiOkJson "/home/u" isoT "/docs/invoice.pdf" none sinkOk
    (fun _ => rfl)

/-- C9: on every successful classify run, the persisted JSON carries the
classification label together with the full raw API response under
`metadata.api_response`, while the text returned to the caller renders the
same document with `api_response` absent from its metadata. -/
theorem C9_classify_persist_return (fs : FileSys) (api : Api)
    (home nowIso filePath : String) (sp sj : Option String) (sink : Option Sink)
    (responseFormat result : JVal) (attempts : Nat)
    (hval : validateExtractionFile fs filePath = .ok ())
    (hsink : ∀ p, callSink sink p = .ok ())
    (hrf : DocClassifier.resolveResponseFormat fs sp sj = .ok responseFormat)
    (hreq : makeRequest "Document classification"
      (api API_ENDPOINTS.DOCUMENT_CLASSIFICATION
        (jobj (InfoExtractor.imageMessage fs filePath "document-classify" ++
          [("response_format", responseFormat)]))) = ⟨.ok result, attempts⟩)
    (hch : invalidChoices result = false) :
    DocClassifier.classifyDocument fs api home nowIso filePath sp sj sink =
      ⟨.ok (jsonStringifyPretty (jobj [("classification",
          ((firstOf (result.getF "choices")).getF "message").getF "content"),
        ("metadata", jobj [("file", JVal.str (basenameOf filePath)),
          ("result_saved_to", JVal.str (getOutputDirectory home "document_classification"
            ++ "/" ++ generateTimestampedFilename nowIso filePath "classification")),
          ("schema_used", JVal.str (if truthyStr sp then sp.getD ""
            else if truthyStr sj then "custom" else "default"))])])),
        attempts,
        [(getOutputDirectory home "document_classification" ++ "/"
            ++ generateTimestampedFilename nowIso filePath "classification",
          jobj [("classification",
            ((firstOf (result.getF "choices")).getF "message").getF "content"),
          ("metadata", jobj [("file", JVal.str (basenameOf filePath)),
            ("result_saved_to", JVal.str (getOutputDirectory home "document_classification"
              ++ "/" ++ generateTimestampedFilename nowIso filePath "classification")),
            ("schema_used", JVal.str (if truthyStr sp then sp.getD ""
              else if truthyStr sj then "custom" else "default")),
            ("api_response", result)])])]⟩ ∧
    ((jobj [("classification",
        ((firstOf (result.getF "choices")).getF "message").getF "content"),
      ("metadata", jobj [("file", JVal.str (basenameOf filePath)),
        ("result_saved_to", JVal.str (getOutputDirectory home "document_classification"
          ++ "/" ++ generateTimestampedFilename nowIso filePath "classification")),
        ("schema_used", JVal.str (if truthyStr sp then sp.getD ""
          else if truthyStr sj then "custom" else "default")),
        ("api_response", result)])]).getF "metadata").getF "api_response" = result ∧
    ((jobj [("classification",
        ((firstOf (result.getF "choices")).getF "message").getF "content"),
      ("metadata", jobj [("file", JVal.str (basenameOf filePath)),
        ("result_saved_to", JVal.str (getOutputDirectory home "document_classification"
          ++ "/" ++ generateTimestampedFilename nowIso filePath "classification")),
        ("schema_used", JVal.str (if truthyStr sp then sp.getD ""
          else if truthyStr sj then "custom" else "default"))])]).getF
      "metadata").getF "api_response" = (.undef) := by
  refine ⟨?_, ?_, ?_⟩
  · have hsink20 : (if truthyStr sj ∨ truthyStr sp then callSink sink 20 else .ok ()) =
        Except.ok () := by
      split
      · exact hsink 20
      · rfl
    simp [DocClassifier.classifyDocument, hval, hsink, hrf, hsink20, hreq, hch]
  · simp [jobj, JMembers.ofList, JVal.getF, JVal.getM]
  · simp [jobj, JMembers.ofList, JVal.getF, JVal.getM]

/-- An endpoint answering every request with the label "invoice" as the
chat content. -/
def apiInvoice : Api := fun _ _ _ => .success (chatResp "\"invoice\"")

/-- C9 witness: a concrete successful classify run — the one write holds the
raw API response under `metadata.api_response`; the returned text comes from
the same object without it. -/
theorem C9_classify_persist_return_witness :
    DocClassifier.classifyDocument fsMain apiInvoice "/home/u" isoT "/docs/invoice.pdf"
      none none none =
      ⟨.ok (jsonStringifyPretty (jobj [("classification", JVal.str "\"invoice\""),
        ("metadata", jobj [("file", JVal.str "invoice.pdf"),
          ("result_saved_to", JVal.str (getOutputDirectory "/home/u" "document_classification"
            ++ "/" ++ generateTimestampedFilename isoT "/docs/invoice.pdf" "classification")),
          ("schema_used", JVal.str "default")])])),
        1,
        [(getOutputDirectory "/home/u" "document_classification" ++ "/"
            ++ generateTimestampedFilename isoT "/docs/invoice.pdf" "classification",
          jobj [("classification", JVal.str "\"invoice\""),
          ("metadata", jobj [("file", JVal.str "invoice.pdf"),
            ("result_saved_to", JVal.str (getOutputDirectory "/home/u" "document_classification"
              ++ "/" ++ generateTimestampedFilename isoT "/docs/invoice.pdf" "classification")),
            ("schema_used", JVal.str "default"),
            ("api_response", chatResp "\"invoice\"")])])]⟩ :=
  (C9_classify_persist_return fsMain apiInvoice "/home/u" isoT "/docs/invoice.pdf"
    none none none
    (jobj [("type", JVal.str "json_schema"),
      ("json_schema", DocClassifier.DEFAULT_CLASSIFICATION_SCHEMA.getF "json_schema")])
    (chatResp "\"invoice\"") 1
    (by decide) (fun _ => rfl) rfl (by decide) (by decide)).1

/-- C6 (amended): with an acceptable Accept header, `POST /mcp` answers
`-32600` (Invalid Request, HTTP 400) exactly for an absent, falsy or
non-object JSON body; every object body — including one missing the
`jsonrpc`/`method` envelope entirely — whose `method` is not `tools/list`
gets the `-32601` Method-not-found answer (HTTP 200), `"nonexistent/thing"`
in particular. -/
theorem C6_http_error_codes :
    (∀ accept, acceptHeaderOk accept = true →
      httpPostMcp accept none = ⟨400, rpcInvalidRequest⟩) ∧
    (∀ accept b, acceptHeaderOk accept = true →
      ¬ (b.truthy = true ∧ b.typeOf = "object") →
      httpPostMcp accept (some b) = ⟨400, rpcInvalidRequest⟩) ∧
    (∀ accept b, acceptHeaderOk accept = true →
      b.truthy = true → b.typeOf = "object" →
      ¬ (b.getF "method" = .str "tools/list") →
      httpPostMcp accept (some b) =
        ⟨200, jobj [("jsonrpc", .str "2.0"),
          ("error", jobj [("code", .num (-32601)), ("message", .str "Method not found")]),
          ("id", b.getF "id")]⟩) ∧
    rpcErrorCode (httpPostMcp (some "application/json")
      (some (jobj [("jsonrpc", JVal.str "2.0"),
        ("method", JVal.str "nonexistent/thing"), ("id", JVal.num 1)]))) =
      .num (-32601) := by
  refine ⟨?_, ?_, ?_, by decide⟩
  · intro accept h
    simp [httpPostMcp, h]
  · intro accept b h hb
    simp [httpPostMcp, h, hb]
  · intro accept b h hb1 hb2 hm
    simp [httpPostMcp, h, hb1, hb2, hm]

/-- C6 counterexample: the empty object misses the `jsonrpc`/`method`
envelope shape, yet the dispatcher answers `-32601` with HTTP 200 — not the
claimed `-32600`: the `-32600` test only catches non-object bodies. -/
theorem C6_counterexample :
    (jobj []).getF "jsonrpc" = (.undef) ∧
    (jobj []).getF "method" = (.undef) ∧
    httpPostMcp (some "application/json") (some (jobj [])) =
      ⟨200, jobj [("jsonrpc", .str "2.0"),
        ("error", jobj [("code", .num (-32601)), ("message", .str "Method not found")]),
        ("id", (.undef))]⟩ ∧
    rpcErrorCode (httpPostMcp (some "application/json") (some (jobj []))) =
      .num (-32601) := by
  refine ⟨by decide, by decide, by decide, by decide⟩

/-- C6 witness: a string body is answered with 400 and the `-32600` body;
an object body with method `"nonexistent/thing"` with 200 and `-32601`. -/
theorem C6_http_error_codes_witness :
    httpPostMcp (some "application/json") (some (JVal.str "hello")) =
      ⟨400, rpcInvalidRequest⟩ ∧
    httpPostMcp (some "application/json")
      (some (jobj [("jsonrpc", JVal.str "2.0"),
        ("method", JVal.str "nonexistent/thing"), ("id", JVal.num 1)])) =
      ⟨200, jobj [("jsonrpc", .str "2.0"),
        ("error", jobj [("code", .num (-32601)), ("message", .str "Method not found")]),
        ("id", JVal.num 1)]⟩ :=
  ⟨C6_http_error_codes.2.1 (some "application/json") (JVal.str "hello")
    (by decide) (by decide),
   C6_http_error_codes.2.2.1 (some "application/json")
    (jobj [("jsonrpc", JVal.str "2.0"),
      ("method", JVal.str "nonexistent/thing"), ("id", JVal.num 1)])
    (by decide) (by decide) (by decide) (by decide)⟩

/-- A JSON-RPC `tools/call` request for the parse tool. -/
def toolsCallBody : JVal :=
  jobj [("jsonrpc", JVal.str "2.0"), ("method", JVal.str "tools/call"),
    ("params", jobj [("name", JVal.str "parse_document"), ("arguments", jobj [])]),
    ("id", JVal.num 1)]

/-- C1 (amended): the transports do NOT share one routing table.  The stdio
dispatcher lists and routes all four tools (each name to its own handler,
unknown names refused); the HTTP dispatcher's `tools/list` covers only the
first two names, and a `tools/call` for a tool the stdio transport routes is
answered with `-32601` Method-not-found instead of reaching a handler. -/
theorem C1_transport_routing :
    httpToolNames = stdioToolNames.take 2 ∧
    stdioRoute "parse_document" = some HandlerId.parseDocumentH ∧
    stdioRoute "extract_information" = some HandlerId.extractInformationH ∧
    stdioRoute "generate_schema" = some HandlerId.generateSchemaH ∧
    stdioRoute "classify_document" = some HandlerId.classifyDocumentH ∧
    stdioRoute "delete_document" = none ∧
    httpPostMcp (some "application/json")
      (some (jobj [("jsonrpc", JVal.str "2.0"), ("method", JVal.str "tools/list"),
        ("id", JVal.num 1)])) =
      ⟨200, jobj [("jsonrpc", .str "2.0"), ("result", jobj [("tools", httpToolsList)]),
        ("id", JVal.num 1)]⟩ ∧
    rpcErrorCode (httpPostMcp (some "application/json") (some toolsCallBody)) =
      .num (-32601) := by
  refine ⟨by decide, by decide, by decide, by decide, by decide, by decide, by decide,
    by decide⟩

/-- C1 counterexample: the tool-name lists differ between the transports,
and a `tools/call` naming `parse_document` — a tool the stdio cascade routes
to its handler — is answered by the HTTP dispatcher with Method-not-found. -/
theorem C1_counterexample :
    httpToolNames ≠ stdioToolNames ∧
    stdioRoute "parse_document" = some HandlerId.parseDocumentH ∧
    (toolsCallBody.getF "method" = .str "tools/call" ∧
     httpPostMcp (some "application/json") (some toolsCallBody) =
      ⟨200, jobj [("jsonrpc", .str "2.0"),
        ("error", jobj [("code", .num (-32601)), ("message", .str "Method not found")]),
        ("id", JVal.num 1)]⟩) := by
  refine ⟨by decide, by decide, by decide, by decide⟩
